import Mathlib

/-!
MCP2515 frame codec: transmit / receive buffer marshalling.

A shallow embedding of `MCP2515_Control::transmit` and `MCP2515_Control::receive`
(`src/MCP2515/MCP2515_Control.cpp`) together with the buffer type and the register
I/O interface of `src/MCP2515/MCP2515_Io.h`.

Conventions of the embedding:

* `uint8_t` / `uint32_t` values are natural numbers; every place where the C++ code
  converts to `uint8_t` or computes in `uint32_t` carries an explicit `% 256` or
  `% 2 ^ 32`.
* A pointer argument (`uint8_t const * data`, `uint8_t * data`) is the memory it points
  to, a function from the byte offset to the byte stored there.
* The local `RxTxBuffer` is not initialised by the C++ code, so its content on entry is
  an argument of the embedding.
* The register I/O layer is a collaborator: the calls made on it are recorded as a list
  of `IoOp`, and what its two read primitives deliver is given by an `MCP2515_Io` value.
-/

namespace MCP2515

/-! ## Constants of `MCP2515_Const.h` -/

/-- Modelled from the spec: `CAN_EFF_BITMASK` is declared in a header that is not part of
the sources; the data model places the "extended frame" flag at bit 29 of the 32-bit id. -/
def CAN_EFF_BITMASK : Nat := 0x20000000

/-- Modelled from the spec: `CAN_RTR_BITMASK` is declared in a header that is not part of
the sources; the data model places the "remote transmission request" flag at bit 30 of
the 32-bit id. -/
def CAN_RTR_BITMASK : Nat := 0x40000000

/-- Modelled from the spec: the helper `bm` of `MCP2515_Const.h` (not part of the sources)
turns the bit position named by a register enum into the 8-bit mask with that bit set. -/
def bm (bit_pos : Nat) : Nat := (1 <<< bit_pos) % 256

/-- Modelled from the spec: bit position of the extended-ID-enable flag in `TXBnSIDL`
(bit 3); the enum lives in `MCP2515_Const.h`, not part of the sources. -/
def TXBnSIDL.EXIDE : Nat := 3

/-- Modelled from the spec: bit position of the extended-ID flag in `RXBnSIDL`, the same
position as on the transmit side (bit 3). -/
def RXBnSIDL.IDE : Nat := 3

/-- Modelled from the spec: bit position of the RTR flag in `TXBnDLC` (bit 6). -/
def TXBnDLC.RTR : Nat := 6

/-- Modelled from the spec: bit position of the RTR indicator in `RXB0CTRL` (bit 3). -/
def RXB0CTRL.RXRTR : Nat := 3

/-- Modelled from the spec: the members of `enum class Register` that `receive` names,
the receive control registers of the two receive buffers. -/
inductive Register where
  | RXB0CTRL
  | RXB1CTRL
  deriving DecidableEq, Repr

/-! ## Types of `MCP2515_Io.h` -/

/-- The source's `enum class TxB`. -/
inductive TxB where
  | TxB0
  | TxB1
  | TxB2
  deriving DecidableEq, Repr

/-- The source's `enum class RxB`. -/
inductive RxB where
  | RxB0
  | RxB1
  deriving DecidableEq, Repr

/-- The `reg` view of the source's `union RxTxBuffer`: five header bytes followed by the
array `data[8]`. -/
structure RxTxBuffer where
  sidh : Nat
  sidl : Nat
  eid8 : Nat
  eid0 : Nat
  dlc : Nat
  data : List Nat
  deriving DecidableEq, Repr

/-- The `buf` view of the union: the same bytes as one flat array
`{SIDH, SIDL, EID8, EID0, DLC, DATA[0-8 Byte]}`. -/
def RxTxBuffer.buf (b : RxTxBuffer) : List Nat :=
  [b.sidh, b.sidl, b.eid8, b.eid0, b.dlc] ++ b.data

/-- The `reg` view of a flat byte array that was written through the `buf` view. -/
def RxTxBuffer.ofBuf (bytes : List Nat) : RxTxBuffer :=
  { sidh := bytes.getD 0 0
    sidl := bytes.getD 1 0
    eid8 := bytes.getD 2 0
    eid0 := bytes.getD 3 0
    dlc := bytes.getD 4 0
    data := bytes.drop 5 }

/-- The source's `MCP2515_Io::TX_BUF_SIZE`. -/
def TX_BUF_SIZE : Nat := 5 + 8

/-- The source's `MCP2515_Io::RX_BUF_SIZE`. -/
def RX_BUF_SIZE : Nat := TX_BUF_SIZE

/-- One call on the register I/O layer, named after the member functions of the
source's `class MCP2515_Io`. -/
inductive IoOp where
  | readRegister (reg : Register)
  | writeRegister (reg : Register) (data : Nat)
  | modifyRegister (reg : Register) (mask : Nat) (data : Nat)
  | loadTxBuffer (txb : TxB) (tx_buf_data : List Nat)
  | requestTx (txb : TxB)
  | readRxBuffer (rxb : RxB)
  | reset
  | status
  deriving DecidableEq, Repr

/-- What the two read primitives of the register I/O layer deliver: the 13 bytes
`readRxBuffer` stores into the caller's array and the byte `readRegister` returns. -/
structure MCP2515_Io where
  readRxBuffer : RxB → List Nat
  readRegister : Register → Nat

/-! ## Library functions used by the codec -/

/-- The conversion of a C++ `bool` to `int` (`true` is 1, `false` is 0). -/
def boolToInt (b : Bool) : Nat := if b then 1 else 0

/-- The call `std::min<uint8_t>(a, b)`: both arguments are converted to `uint8_t`. -/
def std_min_u8 (a b : Nat) : Nat := min (a % 256) (b % 256)

/-- The call `memcpy(dst, src, n)` with a fixed array as destination and a pointer as
source: bytes `0 .. n-1` of the destination are replaced by `src[0] .. src[n-1]`. The
byte count is not checked against the array: when `n` exceeds its size the result is
longer than the array was, which is how a write past the end shows in the embedding. -/
def memcpy_to_array (dst : List Nat) (src : Nat → Nat) (n : Nat) : List Nat :=
  (List.range n).map src ++ dst.drop n

/-- The call `memcpy(dst, src, n)` with a pointer as destination and a fixed array as
source: offsets `0 .. n-1` of the destination memory receive `src[0] .. src[n-1]`, all
other offsets keep their content. -/
def memcpy_from_array (dst : Nat → Nat) (src : List Nat) (n : Nat) : Nat → Nat :=
  fun i => if i < n then src.getD i 0 else dst i

/-! ## `MCP2515_Control` -/

/-- The source's `MCP2515_Control::transmit`. `tx_buffer` is the content of the
uninitialised local buffer on entry; the result is the sequence of calls made on
`_io`. -/
def MCP2515_Control.transmit (tx_buffer : RxTxBuffer) (txb : TxB) (id : Nat)
    (data : Nat → Nat) (len : Nat) : List IoOp :=
  let is_ext : Bool := (id &&& CAN_EFF_BITMASK) == CAN_EFF_BITMASK
  let is_rtr : Bool := (id &&& CAN_RTR_BITMASK) == CAN_RTR_BITMASK
  -- load address registers
  let tx_buffer := { tx_buffer with sidl := ((id &&& 0x00000007) <<< 5) % 256 }
  let tx_buffer := { tx_buffer with sidh := ((id &&& 0x000007F8) >>> 3) % 256 }
  let tx_buffer :=
    if is_ext then
      let tx_buffer :=
        { tx_buffer with sidl := tx_buffer.sidl ||| (((id &&& 0x18000000) >>> 27) % 256) }
      let tx_buffer := { tx_buffer with sidl := tx_buffer.sidl ||| bm TXBnSIDL.EXIDE }
      let tx_buffer := { tx_buffer with eid0 := ((id &&& 0x0007F800) >>> 11) % 256 }
      { tx_buffer with eid8 := ((id &&& 0x07F80000) >>> 19) % 256 }
    else
      let tx_buffer := { tx_buffer with eid0 := 0 }
      { tx_buffer with eid8 := 0 }
  -- load data length register
  let tx_buffer :=
    { tx_buffer with
      dlc := (if is_rtr then (len ||| (1 <<< TXBnDLC.RTR)) else len) % 256 }
  -- load data buffer
  let tx_buffer :=
    { tx_buffer with data := memcpy_to_array tx_buffer.data data (std_min_u8 len 8) }
  -- write to transmit buffer, then request transmission
  [IoOp.loadTxBuffer txb tx_buffer.buf, IoOp.requestTx txb]

/-- The values `MCP2515_Control::receive` leaves in its three output arguments, and the
sequence of calls it made on `_io`. -/
structure Received where
  id : Nat
  data : Nat → Nat
  len : Nat
  io : List IoOp

/-- The source's `MCP2515_Control::receive`. `data` is the content of the caller's
output memory on entry. The two flag tests are embedded as C++ parses them:
`==` binds tighter than `&`, so `x & bm(F) == bm(F)` is `x & (bm(F) == bm(F))`. -/
def MCP2515_Control.receive (io : MCP2515_Io) (rxb : RxB) (data : Nat → Nat) : Received :=
  -- read content of receive buffer
  let rx_buffer := RxTxBuffer.ofBuf (io.readRxBuffer rxb)
  -- assemble ID from registers
  let id := (((rx_buffer.sidh % 2 ^ 32) <<< 3) % 2 ^ 32
              + ((rx_buffer.sidl % 2 ^ 32) >>> 5)) % 2 ^ 32
  let id :=
    if (rx_buffer.sidl &&& boolToInt (bm RXBnSIDL.IDE == bm RXBnSIDL.IDE)) ≠ 0 then
      let id := ((id <<< 2) % 2 ^ 32 + (rx_buffer.sidl &&& 0x03)) % 2 ^ 32
      let id := ((id <<< 8) % 2 ^ 32 + rx_buffer.eid8) % 2 ^ 32
      let id := ((id <<< 8) % 2 ^ 32 + rx_buffer.eid0) % 2 ^ 32
      id ||| CAN_EFF_BITMASK
    else id
  let ctrl_reg_addr := if rxb = RxB.RxB0 then Register.RXB0CTRL else Register.RXB1CTRL
  let ctrl_reg_val := io.readRegister ctrl_reg_addr
  let id :=
    if (ctrl_reg_val &&& boolToInt (bm RXB0CTRL.RXRTR == bm RXB0CTRL.RXRTR)) ≠ 0 then
      id ||| CAN_RTR_BITMASK
    else id
  -- read amount of bytes received
  let len := rx_buffer.dlc &&& 0x0F
  -- copy the received data
  { id := id
    data := memcpy_from_array data rx_buffer.data (std_min_u8 len 8)
    len := len
    io := [IoOp.readRxBuffer rxb, IoOp.readRegister ctrl_reg_addr] }

/-! ## The id reassembly as the specification words it -/

/-- The specification's formula for the base id, written from its words:
`id = (SIDH << 3) | (SIDL >> 5)`. It is compared with the additive computation of
`receive`. -/
def spec_base_id (b : RxTxBuffer) : Nat :=
  (b.sidh <<< 3) ||| (b.sidl >>> 5)

/-- The specification's formula for the extended id, written from its words:
ID = `(id << 2) | (SIDL & 0b11)`, then `(ID << 8) | EID8`, then `(ID << 8) | EID0`.
It is compared with the additive computation of `receive`. -/
def spec_extended_id (b : RxTxBuffer) : Nat :=
  let id := spec_base_id b
  let id := (id <<< 2) ||| (b.sidl &&& 0b11)
  let id := (id <<< 8) ||| b.eid8
  (id <<< 8) ||| b.eid0

/-! ## Arithmetic reading of the bit operations -/

/-- Masking with `b` consecutive ones that start at bit `a` and shifting the field down
reads bits `a .. a+b-1`. -/
theorem and_mask_shiftRight (x a b : Nat) :
    (x &&& ((2 ^ b - 1) <<< a)) >>> a = (x >>> a) % 2 ^ b := by
  apply Nat.eq_of_testBit_eq
  intro i
  simp only [Nat.testBit_shiftRight, Nat.testBit_and, Nat.testBit_shiftLeft,
    Nat.testBit_mod_two_pow, Nat.testBit_two_pow_sub_one]
  have h1 : a + i ≥ a := by omega
  have h2 : a + i - a = i := by omega
  simp [h1, h2, Bool.and_comm]

/-- The value `transmit` stores in `sidl` before the extended branch. -/
theorem sidl_field (x : Nat) : ((x &&& 0x00000007) <<< 5) % 256 = (x % 8) * 32 := by
  have h := Nat.and_pow_two_sub_one_eq_mod x 3
  norm_num at h
  rw [h, Nat.shiftLeft_eq]
  omega

/-- The value `transmit` stores in `sidh`. -/
theorem sidh_field (x : Nat) : ((x &&& 0x000007F8) >>> 3) % 256 = (x / 8) % 256 := by
  have h := and_mask_shiftRight x 3 8
  norm_num [Nat.shiftLeft_eq] at h
  rw [h, Nat.shiftRight_eq_div_pow]
  omega

/-- The two bits `transmit` adds to `sidl` in the extended branch. -/
theorem sidl_ext_field (x : Nat) :
    ((x &&& 0x18000000) >>> 27) % 256 = (x / 2 ^ 27) % 4 := by
  have h := and_mask_shiftRight x 27 2
  norm_num [Nat.shiftLeft_eq] at h
  rw [h, Nat.shiftRight_eq_div_pow]
  omega

/-- The value `transmit` stores in `eid0` in the extended branch. -/
theorem eid0_field (x : Nat) :
    ((x &&& 0x0007F800) >>> 11) % 256 = (x / 2 ^ 11) % 256 := by
  have h := and_mask_shiftRight x 11 8
  norm_num [Nat.shiftLeft_eq] at h
  rw [h, Nat.shiftRight_eq_div_pow]
  omega

/-- The value `transmit` stores in `eid8` in the extended branch. -/
theorem eid8_field (x : Nat) :
    ((x &&& 0x07F80000) >>> 19) % 256 = (x / 2 ^ 19) % 256 := by
  have h := and_mask_shiftRight x 19 8
  norm_num [Nat.shiftLeft_eq] at h
  rw [h, Nat.shiftRight_eq_div_pow]
  omega

/-- A single-bit mask test `(x & 2^k) == 2^k` reads bit `k` of `x`. -/
theorem and_two_pow_eq_iff (x k : Nat) :
    x &&& 2 ^ k = 2 ^ k ↔ (x / 2 ^ k) % 2 = 1 := by
  have h := and_mask_shiftRight x k 1
  norm_num [Nat.shiftLeft_eq, Nat.shiftRight_eq_div_pow] at h
  constructor
  · intro e
    rw [e] at h
    rw [← h]
    exact Nat.div_self (Nat.two_pow_pos k)
  · intro e
    apply Nat.eq_of_testBit_eq
    intro i
    rw [Nat.testBit_and, Nat.testBit_two_pow]
    by_cases hi : k = i
    · subst hi
      simp [Nat.testBit_to_div_mod, e]
    · simp [hi]

/-- The low-nibble mask of `receive` is the remainder modulo 16. -/
theorem and_0x0F (x : Nat) : x &&& 0x0F = x % 16 := by
  have h := Nat.and_pow_two_sub_one_eq_mod x 4
  norm_num at h
  exact h

/-- The two-bit mask of `receive` is the remainder modulo 4. -/
theorem and_0x03 (x : Nat) : x &&& 0x03 = x % 4 := by
  have h := Nat.and_pow_two_sub_one_eq_mod x 2
  norm_num at h
  exact h

/-! ## Facts about the two `memcpy` calls -/

theorem length_memcpy_to_array (dst : List Nat) (src : Nat → Nat) (n : Nat)
    (h : n ≤ dst.length) : (memcpy_to_array dst src n).length = dst.length := by
  simp [memcpy_to_array]
  omega

theorem getElem?_memcpy_to_array_lt (dst : List Nat) (src : Nat → Nat) (n i : Nat)
    (h : i < n) : (memcpy_to_array dst src n)[i]? = some (src i) := by
  unfold memcpy_to_array
  rw [List.getElem?_append_left (by simpa using h)]
  simp [List.getElem?_range h]

theorem getElem?_memcpy_to_array_ge (dst : List Nat) (src : Nat → Nat) (n i : Nat)
    (h : n ≤ i) : (memcpy_to_array dst src n)[i]? = dst[i]? := by
  unfold memcpy_to_array
  rw [List.getElem?_append_right (by simpa using h)]
  simp
  congr 1
  omega

theorem memcpy_to_array_congr (dst : List Nat) (src1 src2 : Nat → Nat) (n : Nat)
    (h : ∀ i, i < n → src1 i = src2 i) :
    memcpy_to_array dst src1 n = memcpy_to_array dst src2 n := by
  unfold memcpy_to_array
  congr 1
  apply List.map_congr_left
  intro i hi
  exact h i (List.mem_range.mp hi)

/-! ## The buffer `transmit` loads -/

/-- The call sequence of `transmit` for an id whose EFF flag is clear, with the header
fields read arithmetically. -/
theorem transmit_of_not_ext (tx_buffer : RxTxBuffer) (txb : TxB) (id : Nat)
    (data : Nat → Nat) (len : Nat) (h : id &&& CAN_EFF_BITMASK ≠ CAN_EFF_BITMASK) :
    MCP2515_Control.transmit tx_buffer txb id data len =
      [IoOp.loadTxBuffer txb
          (RxTxBuffer.buf
            { sidh := (id / 8) % 256
              sidl := (id % 8) * 32
              eid8 := 0
              eid0 := 0
              dlc := (if id &&& CAN_RTR_BITMASK = CAN_RTR_BITMASK
                        then (len ||| (1 <<< TXBnDLC.RTR)) else len) % 256
              data := memcpy_to_array tx_buffer.data data (std_min_u8 len 8) }),
        IoOp.requestTx txb] := by
  simp only [MCP2515_Control.transmit, beq_iff_eq, h, if_false, sidl_field, sidh_field]

/-- The call sequence of `transmit` for an id whose EFF flag is set. -/
theorem transmit_of_ext (tx_buffer : RxTxBuffer) (txb : TxB) (id : Nat)
    (data : Nat → Nat) (len : Nat) (h : id &&& CAN_EFF_BITMASK = CAN_EFF_BITMASK) :
    MCP2515_Control.transmit tx_buffer txb id data len =
      [IoOp.loadTxBuffer txb
          (RxTxBuffer.buf
            { sidh := (id / 8) % 256
              sidl := (id % 8) * 32 ||| (id / 2 ^ 27) % 4 ||| 8
              eid8 := (id / 2 ^ 19) % 256
              eid0 := (id / 2 ^ 11) % 256
              dlc := (if id &&& CAN_RTR_BITMASK = CAN_RTR_BITMASK
                        then (len ||| (1 <<< TXBnDLC.RTR)) else len) % 256
              data := memcpy_to_array tx_buffer.data data (std_min_u8 len 8) }),
        IoOp.requestTx txb] := by
  simp only [MCP2515_Control.transmit, beq_iff_eq, h, if_true, sidl_field, sidh_field,
    sidl_ext_field, eid0_field, eid8_field]
  rfl

/-! ## Round trips -/

/-- Claim C1 (standard-frame round trip): for every id in [0, 0x7FF] (so the EFF and RTR
flags are clear), every length in 0..8 and every payload, `transmit` hands one buffer to
`loadTxBuffer`; whenever `readRxBuffer` returns that buffer and the control register of
the selected receive buffer reads 0x00, `receive` returns the same id, the same length,
and output data whose first `len` bytes are the payload. -/
theorem C1_standard_round_trip (tx_buffer : RxTxBuffer) (txb : TxB) (id : Nat)
    (data : Nat → Nat) (len : Nat) (hid : id ≤ 0x7FF) (hlen : len ≤ 8) :
    ∃ buf : List Nat,
      MCP2515_Control.transmit tx_buffer txb id data len
        = [IoOp.loadTxBuffer txb buf, IoOp.requestTx txb] ∧
      ∀ (io : MCP2515_Io) (rxb : RxB) (out : Nat → Nat),
        io.readRxBuffer rxb = buf →
        io.readRegister
            (if rxb = RxB.RxB0 then Register.RXB0CTRL else Register.RXB1CTRL) = 0x00 →
        (MCP2515_Control.receive io rxb out).id = id ∧
        (MCP2515_Control.receive io rxb out).len = len ∧
        ∀ i, i < len → (MCP2515_Control.receive io rxb out).data i = data i := by
  have hext : (id &&& CAN_EFF_BITMASK) ≠ CAN_EFF_BITMASK := by
    have := @Nat.and_le_left id CAN_EFF_BITMASK
    unfold CAN_EFF_BITMASK at *
    omega
  have hrtr : (id &&& CAN_RTR_BITMASK) ≠ CAN_RTR_BITMASK := by
    have := @Nat.and_le_left id CAN_RTR_BITMASK
    unfold CAN_RTR_BITMASK at *
    omega
  refine ⟨_, transmit_of_not_ext tx_buffer txb id data len hext, ?_⟩
  intro io rxb out hrx hctrl
  simp only [MCP2515_Control.receive, hrx, hctrl, hrtr, if_false]
  simp only [RxTxBuffer.ofBuf, RxTxBuffer.buf, boolToInt]
  have hl : len % 256 &&& 0x0F = len := by
    rw [and_0x0F]
    omega
  have hm : std_min_u8 len 8 = len := by
    unfold std_min_u8
    omega
  simp only [List.cons_append, List.nil_append, List.getD_cons_zero, List.getD_cons_succ,
    List.drop_succ_cons, List.drop_zero, beq_self_eq_true, if_true, Nat.and_one_is_mod, hl, hm]
  refine ⟨?_, trivial, ?_⟩
  · have h2 : ¬ (id % 8 * 32 % 2 ≠ 0) := by omega
    rw [if_neg h2, if_neg (by decide : ¬ (0 % 2 ≠ 0))]
    simp only [Nat.shiftLeft_eq, Nat.shiftRight_eq_div_pow]
    omega
  · intro i hi
    simp only [memcpy_from_array, hi, if_true, List.getD_eq_getElem?_getD,
      getElem?_memcpy_to_array_lt _ _ _ _ hi, Option.getD_some]

/-- Witness of claim C1: id 0x123 with payload DE AD sent through `TxB0` and read back
from `RxB1`, whose control register reads 0x00. -/
theorem C1_standard_round_trip_witness :
    (MCP2515_Control.receive
        ⟨fun _ => [0x24, 0x60, 0x00, 0x00, 0x02, 0xDE, 0xAD, 0xAA, 0xAA, 0xAA, 0xAA, 0xAA, 0xAA],
          fun _ => 0x00⟩
        RxB.RxB1 (fun _ => 0x55)).id = 0x123 ∧
    (MCP2515_Control.receive
        ⟨fun _ => [0x24, 0x60, 0x00, 0x00, 0x02, 0xDE, 0xAD, 0xAA, 0xAA, 0xAA, 0xAA, 0xAA, 0xAA],
          fun _ => 0x00⟩
        RxB.RxB1 (fun _ => 0x55)).len = 2 ∧
    (MCP2515_Control.receive
        ⟨fun _ => [0x24, 0x60, 0x00, 0x00, 0x02, 0xDE, 0xAD, 0xAA, 0xAA, 0xAA, 0xAA, 0xAA, 0xAA],
          fun _ => 0x00⟩
        RxB.RxB1 (fun _ => 0x55)).data 0 = 0xDE ∧
    (MCP2515_Control.receive
        ⟨fun _ => [0x24, 0x60, 0x00, 0x00, 0x02, 0xDE, 0xAD, 0xAA, 0xAA, 0xAA, 0xAA, 0xAA, 0xAA],
          fun _ => 0x00⟩
        RxB.RxB1 (fun _ => 0x55)).data 1 = 0xAD := by
  obtain ⟨buf, htx, h⟩ :=
    C1_standard_round_trip
      ⟨0xAA, 0xAA, 0xAA, 0xAA, 0xAA, [0xAA, 0xAA, 0xAA, 0xAA, 0xAA, 0xAA, 0xAA, 0xAA]⟩
      TxB.TxB0 0x123 (fun i => [0xDE, 0xAD].getD i 0) 2 (by decide) (by decide)
  have e : MCP2515_Control.transmit
      ⟨0xAA, 0xAA, 0xAA, 0xAA, 0xAA, [0xAA, 0xAA, 0xAA, 0xAA, 0xAA, 0xAA, 0xAA, 0xAA]⟩
      TxB.TxB0 0x123 (fun i => [0xDE, 0xAD].getD i 0) 2
      = [IoOp.loadTxBuffer TxB.TxB0
          [0x24, 0x60, 0x00, 0x00, 0x02, 0xDE, 0xAD, 0xAA, 0xAA, 0xAA, 0xAA, 0xAA, 0xAA],
         IoOp.requestTx TxB.TxB0] := by decide
  rw [e] at htx
  have hb :
      [0x24, 0x60, 0x00, 0x00, 0x02, 0xDE, 0xAD, 0xAA, 0xAA, 0xAA, 0xAA, 0xAA, 0xAA] = buf := by
    injection htx with h1 _
    injection h1
  obtain ⟨h1, h2, h3⟩ :=
    h ⟨fun _ => [0x24, 0x60, 0x00, 0x00, 0x02, 0xDE, 0xAD, 0xAA, 0xAA, 0xAA, 0xAA, 0xAA, 0xAA],
        fun _ => 0x00⟩ RxB.RxB1 (fun _ => 0x55) hb rfl
  exact ⟨h1, h2, h3 0 (by decide), h3 1 (by decide)⟩

/-- Claim C2 (extended-frame round trip) fails on the code. For id 0x00000001 with the
EFF flag set `transmit` loads SIDL = 0x28; `receive`, whose extended test reads bit 0 of
SIDL, takes the standard branch on that buffer and returns 0x00000001 with the EFF flag
clear. For id 0x08000000 with the EFF flag set `transmit` loads SIDL = 0x09; `receive`
takes the extended branch and returns 0x00010000 with the EFF flag set, because it
reads SIDH/SIDL as id bits 28..18 while `transmit` stored id bits 10..0 there. -/
theorem C2_extended_round_trip_fails :
    (MCP2515_Control.transmit
        ⟨0xAA, 0xAA, 0xAA, 0xAA, 0xAA, [0xAA, 0xAA, 0xAA, 0xAA, 0xAA, 0xAA, 0xAA, 0xAA]⟩
        TxB.TxB0 (0x00000001 ||| CAN_EFF_BITMASK) (fun _ => 0) 0
      = [IoOp.loadTxBuffer TxB.TxB0
          [0x00, 0x28, 0x00, 0x00, 0x00, 0xAA, 0xAA, 0xAA, 0xAA, 0xAA, 0xAA, 0xAA, 0xAA],
         IoOp.requestTx TxB.TxB0]) ∧
    (MCP2515_Control.receive
        ⟨fun _ => [0x00, 0x28, 0x00, 0x00, 0x00, 0xAA, 0xAA, 0xAA, 0xAA, 0xAA, 0xAA, 0xAA, 0xAA],
          fun _ => 0x00⟩
        RxB.RxB0 (fun _ => 0x55)).id = 0x00000001 ∧
    0x00000001 ≠ (0x00000001 ||| CAN_EFF_BITMASK) ∧
    (MCP2515_Control.transmit
        ⟨0xAA, 0xAA, 0xAA, 0xAA, 0xAA, [0xAA, 0xAA, 0xAA, 0xAA, 0xAA, 0xAA, 0xAA, 0xAA]⟩
        TxB.TxB0 (0x08000000 ||| CAN_EFF_BITMASK) (fun _ => 0) 0
      = [IoOp.loadTxBuffer TxB.TxB0
          [0x00, 0x09, 0x00, 0x00, 0x00, 0xAA, 0xAA, 0xAA, 0xAA, 0xAA, 0xAA, 0xAA, 0xAA],
         IoOp.requestTx TxB.TxB0]) ∧
    (MCP2515_Control.receive
        ⟨fun _ => [0x00, 0x09, 0x00, 0x00, 0x00, 0xAA, 0xAA, 0xAA, 0xAA, 0xAA, 0xAA, 0xAA, 0xAA],
          fun _ => 0x00⟩
        RxB.RxB0 (fun _ => 0x55)).id = (0x00010000 ||| CAN_EFF_BITMASK) ∧
    (0x00010000 ||| CAN_EFF_BITMASK) ≠ (0x08000000 ||| CAN_EFF_BITMASK) := by
  decide

/-! ## Header packing on transmit -/

/-- A flag of the id that is clear fails the test `(id & MASK) == MASK` of `transmit`. -/
theorem eff_test_of_clear (id : Nat) (h : id &&& CAN_EFF_BITMASK = 0) :
    id &&& CAN_EFF_BITMASK ≠ CAN_EFF_BITMASK := by
  rw [h]
  decide

/-- Claim C3 (standard-frame header packing): for every id whose EFF flag is clear,
whatever its other bits, and every length, the buffer `transmit` loads has SIDH = id
bits 10..3, SIDL = (id bits 2..0) << 5 with SIDL bits 4..0 all zero (so the
extended-ID-enable bit, bit 3, is not set), EID8 = 0 and EID0 = 0. -/
theorem C3_standard_header_packing (tx_buffer : RxTxBuffer) (txb : TxB) (id : Nat)
    (data : Nat → Nat) (len : Nat) (heff : id &&& CAN_EFF_BITMASK = 0) :
    ∃ b : RxTxBuffer,
      MCP2515_Control.transmit tx_buffer txb id data len
        = [IoOp.loadTxBuffer txb b.buf, IoOp.requestTx txb] ∧
      b.sidh = (id / 2 ^ 3) % 2 ^ 8 ∧
      b.sidl = (id % 2 ^ 3) <<< 5 ∧
      (∀ i, i ≤ 4 → b.sidl.testBit i = false) ∧
      b.sidl &&& bm TXBnSIDL.EXIDE = 0 ∧
      b.eid8 = 0 ∧
      b.eid0 = 0 := by
  refine ⟨_, transmit_of_not_ext tx_buffer txb id data len (eff_test_of_clear id heff),
    ?_, ?_, ?_, ?_, rfl, rfl⟩
  · rfl
  · simp only [Nat.shiftLeft_eq]
    rfl
  · intro i hi
    have hp : id % 8 < 8 := Nat.mod_lt _ (by decide)
    show (id % 8 * 32).testBit i = false
    generalize id % 8 = p at hp
    interval_cases p <;> interval_cases i <;> rfl
  · have hp : id % 8 < 8 := Nat.mod_lt _ (by decide)
    show (id % 8 * 32) &&& bm TXBnSIDL.EXIDE = 0
    generalize id % 8 = p at hp
    interval_cases p <;> rfl

/-- Witness of claim C3: id 0x123 gives SIDH = 0x24, SIDL = 0x60, EID8 = 0x00 and
EID0 = 0x00. -/
theorem C3_standard_header_packing_witness :
    0x123 &&& CAN_EFF_BITMASK = 0 ∧
    ∃ b : RxTxBuffer,
      MCP2515_Control.transmit
          ⟨0xAA, 0xAA, 0xAA, 0xAA, 0xAA, [0xAA, 0xAA, 0xAA, 0xAA, 0xAA, 0xAA, 0xAA, 0xAA]⟩
          TxB.TxB0 0x123 (fun i => [0xDE, 0xAD].getD i 0) 2
        = [IoOp.loadTxBuffer TxB.TxB0 b.buf, IoOp.requestTx TxB.TxB0] ∧
      b.sidh = 0x24 ∧ b.sidl = 0x60 ∧ b.sidl &&& 0x1F = 0 ∧ b.eid8 = 0x00 ∧ b.eid0 = 0x00 := by
  refine ⟨by decide, ?_⟩
  obtain ⟨b, h1, h2, h3, _, _, h6, h7⟩ :=
    C3_standard_header_packing
      ⟨0xAA, 0xAA, 0xAA, 0xAA, 0xAA, [0xAA, 0xAA, 0xAA, 0xAA, 0xAA, 0xAA, 0xAA, 0xAA]⟩
      TxB.TxB0 0x123 (fun i => [0xDE, 0xAD].getD i 0) 2 (by decide)
  exact ⟨b, h1, h2, h3, by rw [h3]; decide, h6, h7⟩

/-- Setting the EFF flag on a 29-bit id adds `2 ^ 29` to it. -/
theorem or_eff_eq_add (id : Nat) (hid : id ≤ 0x1FFFFFFF) :
    id ||| CAN_EFF_BITMASK = id + 2 ^ 29 := by
  have h := Nat.mul_add_lt_is_or (show id < 2 ^ 29 by omega) 1
  rw [Nat.or_comm]
  simp only [CAN_EFF_BITMASK]
  norm_num at h ⊢
  omega

/-- Claim C4 (extended-frame header packing): for every id in [0, 0x1FFFFFFF], the
buffer `transmit` loads for `id | EFF_FLAG` has SIDH = id bits 10..3,
SIDL = ((id bits 2..0) << 5) | extended-ID-enable bit (bit 3) | id bits 28..27 in SIDL
bits 1..0, with SIDL bits 4 and 2 zero, EID8 = id bits 26..19 and EID0 = id bits 18..11;
the RTR flag being clear, DLC is the length. -/
theorem C4_extended_header_packing (tx_buffer : RxTxBuffer) (txb : TxB) (id : Nat)
    (data : Nat → Nat) (len : Nat) (hid : id ≤ 0x1FFFFFFF) :
    ∃ b : RxTxBuffer,
      MCP2515_Control.transmit tx_buffer txb (id ||| CAN_EFF_BITMASK) data len
        = [IoOp.loadTxBuffer txb b.buf, IoOp.requestTx txb] ∧
      b.sidh = (id / 2 ^ 3) % 2 ^ 8 ∧
      b.sidl = ((id % 2 ^ 3) <<< 5) ||| bm TXBnSIDL.EXIDE ||| ((id / 2 ^ 27) % 2 ^ 2) ∧
      b.sidl / 2 ^ 5 = id % 2 ^ 3 ∧
      b.sidl.testBit 4 = false ∧
      b.sidl.testBit 3 = true ∧
      b.sidl.testBit 2 = false ∧
      b.sidl % 2 ^ 2 = id / 2 ^ 27 ∧
      b.eid8 = (id / 2 ^ 19) % 2 ^ 8 ∧
      b.eid0 = (id / 2 ^ 11) % 2 ^ 8 ∧
      b.dlc = len % 256 := by
  have hadd := or_eff_eq_add id hid
  have heff : (id ||| CAN_EFF_BITMASK) &&& CAN_EFF_BITMASK = CAN_EFF_BITMASK := by
    rw [hadd]
    exact (and_two_pow_eq_iff (id + 2 ^ 29) 29).mpr (by omega)
  have hrtr : ¬ ((id ||| CAN_EFF_BITMASK) &&& CAN_RTR_BITMASK = CAN_RTR_BITMASK) := by
    rw [hadd]
    intro h
    have := (and_two_pow_eq_iff (id + 2 ^ 29) 30).mp h
    omega
  refine ⟨_, transmit_of_ext tx_buffer txb (id ||| CAN_EFF_BITMASK) data len heff, ?_⟩
  rw [hadd] at hrtr
  simp only [hadd, hrtr, if_false]
  have e1 : (id + 2 ^ 29) / 8 % 256 = id / 2 ^ 3 % 2 ^ 8 := by omega
  have e2 : (id + 2 ^ 29) % 8 = id % 2 ^ 3 := by omega
  have e3 : (id + 2 ^ 29) / 2 ^ 27 % 4 = id / 2 ^ 27 := by omega
  have e4 : (id + 2 ^ 29) / 2 ^ 19 % 256 = id / 2 ^ 19 % 2 ^ 8 := by omega
  have e5 : (id + 2 ^ 29) / 2 ^ 11 % 256 = id / 2 ^ 11 % 2 ^ 8 := by omega
  have e6 : id / 2 ^ 27 % 2 ^ 2 = id / 2 ^ 27 := by omega
  rw [e1, e2, e3, e4, e5, e6]
  have hp : id % 2 ^ 3 < 8 := Nat.mod_lt _ (by decide)
  have hq : id / 2 ^ 27 < 4 := by omega
  generalize id % 2 ^ 3 = p at hp
  generalize id / 2 ^ 27 = q at hq
  refine ⟨rfl, ?_, ?_, ?_, ?_, ?_, ?_, rfl, rfl, trivial⟩ <;>
    interval_cases p <;> interval_cases q <;> rfl

/-- Witness of claim C4: id 0x1FFFFFFF with length 0 gives SIDH = 0xFF, SIDL = 0xEB,
EID8 = 0xFF, EID0 = 0xFF and DLC = 0x00. -/
theorem C4_extended_header_packing_witness :
    0x1FFFFFFF ≤ 0x1FFFFFFF ∧
    ∃ b : RxTxBuffer,
      MCP2515_Control.transmit
          ⟨0xAA, 0xAA, 0xAA, 0xAA, 0xAA, [0xAA, 0xAA, 0xAA, 0xAA, 0xAA, 0xAA, 0xAA, 0xAA]⟩
          TxB.TxB0 (0x1FFFFFFF ||| CAN_EFF_BITMASK) (fun _ => 0) 0
        = [IoOp.loadTxBuffer TxB.TxB0 b.buf, IoOp.requestTx TxB.TxB0] ∧
      b.sidh = 0xFF ∧ b.sidl = 0xEB ∧ b.eid8 = 0xFF ∧ b.eid0 = 0xFF ∧ b.dlc = 0x00 := by
  refine ⟨by decide, ?_⟩
  obtain ⟨b, h1, h2, h3, _, _, _, _, _, h9, h10, h11⟩ :=
    C4_extended_header_packing
      ⟨0xAA, 0xAA, 0xAA, 0xAA, 0xAA, [0xAA, 0xAA, 0xAA, 0xAA, 0xAA, 0xAA, 0xAA, 0xAA]⟩
      TxB.TxB0 0x1FFFFFFF (fun _ => 0) 0 (by decide)
  exact ⟨b, h1, h2, h3, h9, h10, h11⟩

/-! ## The transmit protocol and the payload copy -/

/-- Whatever the id, `transmit` loads five header bytes followed by the data field it
obtained from the one `memcpy`, and then requests transmission on the same buffer. -/
theorem transmit_shape (tx_buffer : RxTxBuffer) (txb : TxB) (id : Nat)
    (data : Nat → Nat) (len : Nat) :
    ∃ sidh sidl eid8 eid0 dlc : Nat,
      MCP2515_Control.transmit tx_buffer txb id data len =
        [IoOp.loadTxBuffer txb
            (RxTxBuffer.buf
              { sidh := sidh, sidl := sidl, eid8 := eid8, eid0 := eid0, dlc := dlc
                data := memcpy_to_array tx_buffer.data data (std_min_u8 len 8) }),
          IoOp.requestTx txb] := by
  by_cases h : id &&& CAN_EFF_BITMASK = CAN_EFF_BITMASK
  · exact ⟨_, _, _, _, _, transmit_of_ext tx_buffer txb id data len h⟩
  · exact ⟨_, _, _, _, _, transmit_of_not_ext tx_buffer txb id data len h⟩

theorem std_min_u8_le (len : Nat) : std_min_u8 len 8 ≤ 8 := by
  unfold std_min_u8
  omega

theorem std_min_u8_eq (len : Nat) (h : len < 256) : std_min_u8 len 8 = min len 8 := by
  unfold std_min_u8
  omega

/-- Claim C5 (transmit protocol): for every slot, id, payload and length, `transmit`
performs exactly two register I/O operations, in this order: `loadTxBuffer` of the
packed 13-byte buffer for the slot, then `requestTx` for that same slot; nothing else
is read or written. -/
theorem C5_transmit_protocol (tx_buffer : RxTxBuffer) (txb : TxB) (id : Nat)
    (data : Nat → Nat) (len : Nat) (hsize : tx_buffer.buf.length = TX_BUF_SIZE) :
    ∃ b : RxTxBuffer,
      MCP2515_Control.transmit tx_buffer txb id data len
        = [IoOp.loadTxBuffer txb b.buf, IoOp.requestTx txb] ∧
      b.buf.length = TX_BUF_SIZE ∧
      (MCP2515_Control.transmit tx_buffer txb id data len).length = 2 := by
  obtain ⟨sidh, sidl, eid8, eid0, dlc, h⟩ := transmit_shape tx_buffer txb id data len
  refine ⟨_, h, ?_, by rw [h]; rfl⟩
  have h8 : tx_buffer.data.length = 8 := by
    simp only [RxTxBuffer.buf, TX_BUF_SIZE, List.length_append, List.length_cons,
      List.length_nil] at hsize
    omega
  have hn := std_min_u8_le len
  simp only [RxTxBuffer.buf, TX_BUF_SIZE, List.length_append, List.length_cons,
    List.length_nil]
  rw [length_memcpy_to_array _ _ _ (by omega), h8]

/-- Witness of claim C5: `transmit(TxB0, 0x123, [0xDE, 0xAD], 2)` loads a buffer that
starts 0x24, 0x60, 0x00, 0x00, 0x02, 0xDE, 0xAD and then requests sending on slot 0. -/
theorem C5_transmit_protocol_witness :
    ∃ b : RxTxBuffer,
      MCP2515_Control.transmit
          ⟨0xAA, 0xAA, 0xAA, 0xAA, 0xAA, [0xAA, 0xAA, 0xAA, 0xAA, 0xAA, 0xAA, 0xAA, 0xAA]⟩
          TxB.TxB0 0x123 (fun i => [0xDE, 0xAD].getD i 0) 2
        = [IoOp.loadTxBuffer TxB.TxB0 b.buf, IoOp.requestTx TxB.TxB0] ∧
      b.buf.length = 13 ∧
      b.buf.take 7 = [0x24, 0x60, 0x00, 0x00, 0x02, 0xDE, 0xAD] := by
  obtain ⟨b, h1, h2, _⟩ :=
    C5_transmit_protocol
      ⟨0xAA, 0xAA, 0xAA, 0xAA, 0xAA, [0xAA, 0xAA, 0xAA, 0xAA, 0xAA, 0xAA, 0xAA, 0xAA]⟩
      TxB.TxB0 0x123 (fun i => [0xDE, 0xAD].getD i 0) 2 (by decide)
  have e : MCP2515_Control.transmit
      ⟨0xAA, 0xAA, 0xAA, 0xAA, 0xAA, [0xAA, 0xAA, 0xAA, 0xAA, 0xAA, 0xAA, 0xAA, 0xAA]⟩
      TxB.TxB0 0x123 (fun i => [0xDE, 0xAD].getD i 0) 2
      = [IoOp.loadTxBuffer TxB.TxB0
          [0x24, 0x60, 0x00, 0x00, 0x02, 0xDE, 0xAD, 0xAA, 0xAA, 0xAA, 0xAA, 0xAA, 0xAA],
         IoOp.requestTx TxB.TxB0] := by decide
  have hb : [0x24, 0x60, 0x00, 0x00, 0x02, 0xDE, 0xAD, 0xAA, 0xAA, 0xAA, 0xAA, 0xAA, 0xAA]
      = b.buf := by
    rw [e] at h1
    injection h1 with h1 _
    injection h1
  exact ⟨b, h1, h2, by rw [← hb]; rfl⟩

/-- Claim C6 (RTR on the transmit path) fails on the code for a length whose bit 6 is
set: `transmit` stores the length in DLC without masking it, so for id 0 (RTR flag
clear) and length 64 the DLC byte it loads is 0x40, whose RTR bit (bit 6) is set. -/
theorem C6_dlc_rtr_bit_without_rtr_flag :
    0 &&& CAN_RTR_BITMASK = 0 ∧
    (MCP2515_Control.transmit
        ⟨0xAA, 0xAA, 0xAA, 0xAA, 0xAA, [0xAA, 0xAA, 0xAA, 0xAA, 0xAA, 0xAA, 0xAA, 0xAA]⟩
        TxB.TxB0 0 (fun _ => 0x11) 64
      = [IoOp.loadTxBuffer TxB.TxB0
          [0x00, 0x00, 0x00, 0x00, 0x40, 0x11, 0x11, 0x11, 0x11, 0x11, 0x11, 0x11, 0x11],
         IoOp.requestTx TxB.TxB0]) ∧
    (0x40 : Nat).testBit TXBnDLC.RTR = true := by
  decide

/-- Claim C7 (transmit payload copy with hard bound): for every length in 0..255 and
every source payload, `transmit` copies exactly min(length, 8) bytes: DATA[i] of the
loaded buffer is data[i] for every i < min(length, 8), DATA[i] for i >= min(length, 8)
keeps the content the buffer had before the copy, and the buffer is still 13 bytes
long, its data field 8 bytes: nothing is written outside its bounds. -/
theorem C7_transmit_payload_copy (tx_buffer : RxTxBuffer) (txb : TxB) (id : Nat)
    (data : Nat → Nat) (len : Nat) (hlen : len < 256)
    (hsize : tx_buffer.buf.length = TX_BUF_SIZE) :
    ∃ b : RxTxBuffer,
      MCP2515_Control.transmit tx_buffer txb id data len
        = [IoOp.loadTxBuffer txb b.buf, IoOp.requestTx txb] ∧
      (∀ i, i < min len 8 → b.data[i]? = some (data i)) ∧
      (∀ i, min len 8 ≤ i → b.data[i]? = tx_buffer.data[i]?) ∧
      b.data.length = 8 ∧
      b.buf.length = TX_BUF_SIZE := by
  obtain ⟨sidh, sidl, eid8, eid0, dlc, h⟩ := transmit_shape tx_buffer txb id data len
  have h8 : tx_buffer.data.length = 8 := by
    simp only [RxTxBuffer.buf, TX_BUF_SIZE, List.length_append, List.length_cons,
      List.length_nil] at hsize
    omega
  have hm := std_min_u8_eq len hlen
  have hl : (memcpy_to_array tx_buffer.data data (std_min_u8 len 8)).length = 8 := by
    rw [length_memcpy_to_array _ _ _ (by omega), h8]
  refine ⟨_, h, ?_, ?_, hl, ?_⟩
  · intro i hi
    exact getElem?_memcpy_to_array_lt _ _ _ _ (by omega)
  · intro i hi
    exact getElem?_memcpy_to_array_ge _ _ _ _ (by omega)
  · simp only [RxTxBuffer.buf, TX_BUF_SIZE, List.length_append, List.length_cons,
      List.length_nil, hl]

/-- Witness of claim C7: with length 12 exactly 8 bytes are copied, the first eight of
the source, and the loaded buffer is 13 bytes long. -/
theorem C7_transmit_payload_copy_witness :
    ∃ b : RxTxBuffer,
      MCP2515_Control.transmit
          ⟨0xAA, 0xAA, 0xAA, 0xAA, 0xAA, [0xAA, 0xAA, 0xAA, 0xAA, 0xAA, 0xAA, 0xAA, 0xAA]⟩
          TxB.TxB0 0x123 (fun i => 0x10 + i) 12
        = [IoOp.loadTxBuffer TxB.TxB0 b.buf, IoOp.requestTx TxB.TxB0] ∧
      b.data[0]? = some 0x10 ∧
      b.data[7]? = some 0x17 ∧
      b.data[8]? = none ∧
      b.data.length = 8 ∧
      b.buf.length = 13 := by
  obtain ⟨b, h1, h2, h3, h4, h5⟩ :=
    C7_transmit_payload_copy
      ⟨0xAA, 0xAA, 0xAA, 0xAA, 0xAA, [0xAA, 0xAA, 0xAA, 0xAA, 0xAA, 0xAA, 0xAA, 0xAA]⟩
      TxB.TxB0 0x123 (fun i => 0x10 + i) 12 (by decide) (by decide)
  exact ⟨b, h1, h2 0 (by decide), h2 7 (by decide), h3 8 (by decide), h4, h5⟩

/-- Claim C8 (source bytes past the bound are never read): for every id and length and
any two source payloads that agree on their first min(length, 8) bytes, `transmit`
started from the same prior buffer content loads the identical buffer and issues the
identical I/O sequence. -/
theorem C8_transmit_reads_bounded (tx_buffer : RxTxBuffer) (txb : TxB) (id : Nat)
    (data1 data2 : Nat → Nat) (len : Nat) (hlen : len < 256)
    (hagree : ∀ i, i < min len 8 → data1 i = data2 i) :
    MCP2515_Control.transmit tx_buffer txb id data1 len
      = MCP2515_Control.transmit tx_buffer txb id data2 len := by
  have hm := std_min_u8_eq len hlen
  have hc : memcpy_to_array tx_buffer.data data1 (std_min_u8 len 8)
      = memcpy_to_array tx_buffer.data data2 (std_min_u8 len 8) :=
    memcpy_to_array_congr _ _ _ _ (by rw [hm]; exact hagree)
  by_cases h : id &&& CAN_EFF_BITMASK = CAN_EFF_BITMASK
  · rw [transmit_of_ext _ _ _ _ _ h, transmit_of_ext _ _ _ _ _ h, hc]
  · rw [transmit_of_not_ext _ _ _ _ _ h, transmit_of_not_ext _ _ _ _ _ h, hc]

/-- Witness of claim C8: with length 12, two sources that differ at every index from 8
on give the same I/O sequence. -/
theorem C8_transmit_reads_bounded_witness :
    MCP2515_Control.transmit
        ⟨0xAA, 0xAA, 0xAA, 0xAA, 0xAA, [0xAA, 0xAA, 0xAA, 0xAA, 0xAA, 0xAA, 0xAA, 0xAA]⟩
        TxB.TxB0 0x123 (fun i => if i < 8 then 0x10 + i else 0xEE) 12
      = MCP2515_Control.transmit
        ⟨0xAA, 0xAA, 0xAA, 0xAA, 0xAA, [0xAA, 0xAA, 0xAA, 0xAA, 0xAA, 0xAA, 0xAA, 0xAA]⟩
        TxB.TxB0 0x123 (fun i => if i < 8 then 0x10 + i else 0x77) 12 :=
  C8_transmit_reads_bounded
    ⟨0xAA, 0xAA, 0xAA, 0xAA, 0xAA, [0xAA, 0xAA, 0xAA, 0xAA, 0xAA, 0xAA, 0xAA, 0xAA]⟩
    TxB.TxB0 0x123 _ _ 12 (by decide)
    (fun i hi => by
      have h8 : i < 8 := by
        have : min 12 8 = 8 := by decide
        omega
      simp only [h8, if_true])

/-! ## Receive -/

/-- The `reg` view of a buffer read back through its `buf` view. -/
theorem ofBuf_buf (b : RxTxBuffer) : RxTxBuffer.ofBuf b.buf = b := by
  cases b
  rfl

/-- Claim C9 (receive length masking): for every buffer returned by `readRxBuffer`, the
length `receive` returns is DLC & 0x0F, hence in 0..15 and independent of DLC bits
7..4. -/
theorem C9_receive_length_masking (io : MCP2515_Io) (rxb : RxB) (out : Nat → Nat)
    (b : RxTxBuffer) (hrx : io.readRxBuffer rxb = b.buf) :
    (MCP2515_Control.receive io rxb out).len = b.dlc &&& 0x0F ∧
    (MCP2515_Control.receive io rxb out).len = b.dlc % 16 ∧
    (MCP2515_Control.receive io rxb out).len ≤ 15 := by
  have h : (MCP2515_Control.receive io rxb out).len = b.dlc &&& 0x0F := by
    simp only [MCP2515_Control.receive, hrx, ofBuf_buf]
  have h16 := and_0x0F b.dlc
  refine ⟨h, by rw [h, h16], ?_⟩
  rw [h, h16]
  omega

/-- Witness of claim C9: DLC = 0xFF yields length 0x0F. -/
theorem C9_receive_length_masking_witness :
    (MCP2515_Control.receive
        ⟨fun _ => [0x24, 0x60, 0x00, 0x00, 0xFF, 1, 2, 3, 4, 5, 6, 7, 8], fun _ => 0x00⟩
        RxB.RxB0 (fun _ => 0x55)).len = 0x0F := by
  have h :=
    (C9_receive_length_masking
      ⟨fun _ => [0x24, 0x60, 0x00, 0x00, 0xFF, 1, 2, 3, 4, 5, 6, 7, 8], fun _ => 0x00⟩
      RxB.RxB0 (fun _ => 0x55) ⟨0x24, 0x60, 0x00, 0x00, 0xFF, [1, 2, 3, 4, 5, 6, 7, 8]⟩ rfl).1
  exact h

/-- Claim C10 (receive extended-frame detection) fails on the code. A buffer whose SIDL
is 0x08 has the extended-ID-enable flag (bit 3) set, yet `receive` takes the standard
branch and returns an id with the EFF flag clear; a buffer whose SIDL is 0x01 has the
flag clear, yet `receive` reassembles a 29-bit id and sets the EFF flag. The test
`sidl & bm(IDE) == bm(IDE)` is parsed as `sidl & (bm(IDE) == bm(IDE))`, which reads
bit 0. -/
theorem C10_receive_extended_detection_fails :
    (0x08 &&& bm RXBnSIDL.IDE = bm RXBnSIDL.IDE) ∧
    (MCP2515_Control.receive
        ⟨fun _ => [0x24, 0x08, 0x12, 0x34, 0x00, 0, 0, 0, 0, 0, 0, 0, 0], fun _ => 0x00⟩
        RxB.RxB0 (fun _ => 0x55)).id = 0x120 ∧
    (0x120 &&& CAN_EFF_BITMASK = 0) ∧
    (0x01 &&& bm RXBnSIDL.IDE = 0) ∧
    (MCP2515_Control.receive
        ⟨fun _ => [0x24, 0x01, 0x12, 0x34, 0x00, 0, 0, 0, 0, 0, 0, 0, 0], fun _ => 0x00⟩
        RxB.RxB0 (fun _ => 0x55)).id = (0x04811234 ||| CAN_EFF_BITMASK) := by
  decide

/-! ## The id `receive` reassembles -/

/-- Setting a flag bit that lies above the value adds the flag to it. -/
theorem or_two_pow_eq_add (x k : Nat) (h : x < 2 ^ k) : x ||| 2 ^ k = x + 2 ^ k := by
  have e := Nat.mul_add_lt_is_or h 1
  rw [Nat.mul_one] at e
  rw [Nat.or_comm, ← e]
  omega

/-- The id `receive` returns, read arithmetically, for a buffer of bytes: the branch
taken depends on bit 0 of SIDL, the RTR flag on bit 0 of the control register. -/
theorem receive_id_arith (io : MCP2515_Io) (rxb : RxB) (out : Nat → Nat) (b : RxTxBuffer)
    (hrx : io.readRxBuffer rxb = b.buf) (hsidh : b.sidh < 256) (hsidl : b.sidl < 256)
    (heid8 : b.eid8 < 256) (heid0 : b.eid0 < 256) :
    (MCP2515_Control.receive io rxb out).id =
      (if b.sidl % 2 = 1 then
          (((b.sidh * 8 + b.sidl / 32) * 4 + b.sidl % 4) * 256 + b.eid8) * 256 + b.eid0
            + 2 ^ 29
        else b.sidh * 8 + b.sidl / 32)
      + (if io.readRegister
              (if rxb = RxB.RxB0 then Register.RXB0CTRL else Register.RXB1CTRL) % 2 = 1
          then 2 ^ 30 else 0) := by
  have hE : CAN_EFF_BITMASK = 2 ^ 29 := rfl
  have hR : CAN_RTR_BITMASK = 2 ^ 30 := rfl
  simp only [MCP2515_Control.receive, hrx, ofBuf_buf, boolToInt, beq_self_eq_true, if_true,
    Nat.and_one_is_mod, and_0x03, Nat.shiftLeft_eq, Nat.shiftRight_eq_div_pow, hE, hR]
  generalize io.readRegister
    (if rxb = RxB.RxB0 then Register.RXB0CTRL else Register.RXB1CTRL) = ctrl
  have hbase : (b.sidh % 2 ^ 32 * 2 ^ 3 % 2 ^ 32 + b.sidl % 2 ^ 32 / 2 ^ 5) % 2 ^ 32
      = b.sidh * 8 + b.sidl / 32 := by omega
  rw [hbase]
  have hext : ((((b.sidh * 8 + b.sidl / 32) * 2 ^ 2 % 2 ^ 32 + b.sidl % 4) % 2 ^ 32 * 2 ^ 8
        % 2 ^ 32 + b.eid8) % 2 ^ 32 * 2 ^ 8 % 2 ^ 32 + b.eid0) % 2 ^ 32
      = (((b.sidh * 8 + b.sidl / 32) * 4 + b.sidl % 4) * 256 + b.eid8) * 256 + b.eid0 := by
    omega
  rw [hext]
  have hlt : (((b.sidh * 8 + b.sidl / 32) * 4 + b.sidl % 4) * 256 + b.eid8) * 256 + b.eid0
      < 2 ^ 29 := by omega
  by_cases h0 : b.sidl % 2 = 1
  · have h0' : b.sidl % 2 ≠ 0 := by omega
    rw [if_pos h0', if_pos h0, or_two_pow_eq_add _ 29 hlt]
    by_cases hc : ctrl % 2 = 1
    · have hc' : ctrl % 2 ≠ 0 := by omega
      rw [if_pos hc', if_pos hc, or_two_pow_eq_add _ 30 (by omega)]
    · have hc' : ¬ (ctrl % 2 ≠ 0) := by omega
      rw [if_neg hc', if_neg hc, Nat.add_zero]
  · have h0' : ¬ (b.sidl % 2 ≠ 0) := by omega
    rw [if_neg h0', if_neg h0]
    by_cases hc : ctrl % 2 = 1
    · have hc' : ctrl % 2 ≠ 0 := by omega
      rw [if_pos hc', if_pos hc, or_two_pow_eq_add _ 30 (by omega)]
    · have hc' : ¬ (ctrl % 2 ≠ 0) := by omega
      rw [if_neg hc', if_neg hc, Nat.add_zero]

/-- Claim C11 (receive RTR detection) fails on the code. With the control register
reading 0x08 (RXRTR, bit 3, set) `receive` returns an id whose RTR flag is clear, for
`RxB0` reading `RXB0CTRL` and for `RxB1` reading `RXB1CTRL`; with the register reading
0x01 (RXRTR clear) it returns an id whose RTR flag is set. The test
`ctrl_reg_val & bm(RXRTR) == bm(RXRTR)` is parsed as
`ctrl_reg_val & (bm(RXRTR) == bm(RXRTR))`, which reads bit 0. -/
theorem C11_receive_rtr_detection_fails :
    (0x08 &&& bm RXB0CTRL.RXRTR = bm RXB0CTRL.RXRTR) ∧
    (MCP2515_Control.receive
        ⟨fun _ => [0x24, 0x60, 0x00, 0x00, 0x00, 0, 0, 0, 0, 0, 0, 0, 0],
          fun r => if r = Register.RXB0CTRL then 0x08 else 0x00⟩
        RxB.RxB0 (fun _ => 0x55)).id = 0x123 ∧
    (MCP2515_Control.receive
        ⟨fun _ => [0x24, 0x60, 0x00, 0x00, 0x00, 0, 0, 0, 0, 0, 0, 0, 0],
          fun r => if r = Register.RXB1CTRL then 0x08 else 0x00⟩
        RxB.RxB1 (fun _ => 0x55)).id = 0x123 ∧
    (0x123 &&& CAN_RTR_BITMASK = 0) ∧
    (0x01 &&& bm RXB0CTRL.RXRTR = 0) ∧
    (MCP2515_Control.receive
        ⟨fun _ => [0x24, 0x60, 0x00, 0x00, 0x00, 0, 0, 0, 0, 0, 0, 0, 0],
          fun r => if r = Register.RXB0CTRL then 0x01 else 0x00⟩
        RxB.RxB0 (fun _ => 0x55)).id = (0x123 ||| CAN_RTR_BITMASK) := by
  decide

/-- Claim C12 (receive payload copy with hard bound): for every 13-byte buffer returned
by `readRxBuffer`, whatever the low nibble of DLC, `receive` writes exactly
min(length, 8) bytes to the caller's output: out[i] is DATA[i], an element of the
buffer's data field, for every i < min(length, 8); the output at every index from
min(length, 8) on is unchanged; and the bytes read lie inside the 13-byte buffer. -/
theorem C12_receive_payload_copy (io : MCP2515_Io) (rxb : RxB) (out : Nat → Nat)
    (b : RxTxBuffer) (hrx : io.readRxBuffer rxb = b.buf)
    (hsize : b.buf.length = RX_BUF_SIZE) :
    (∀ i, i < min (MCP2515_Control.receive io rxb out).len 8 →
        b.data[i]? = some ((MCP2515_Control.receive io rxb out).data i)) ∧
    (∀ i, min (MCP2515_Control.receive io rxb out).len 8 ≤ i →
        (MCP2515_Control.receive io rxb out).data i = out i) ∧
    min (MCP2515_Control.receive io rxb out).len 8 ≤ b.data.length ∧
    5 + min (MCP2515_Control.receive io rxb out).len 8 ≤ RX_BUF_SIZE := by
  have h8 : b.data.length = 8 := by
    simp only [RxTxBuffer.buf, RX_BUF_SIZE, TX_BUF_SIZE, List.length_append,
      List.length_cons, List.length_nil] at hsize
    omega
  have hlen : (MCP2515_Control.receive io rxb out).len = b.dlc % 16 := by
    simp only [MCP2515_Control.receive, hrx, ofBuf_buf, and_0x0F]
  have hdata : (MCP2515_Control.receive io rxb out).data
      = memcpy_from_array out b.data (min (b.dlc % 16) 8) := by
    simp only [MCP2515_Control.receive, hrx, ofBuf_buf, and_0x0F]
    rw [std_min_u8_eq _ (by omega)]
  rw [hlen, hdata]
  refine ⟨?_, ?_, by omega, by simp only [RX_BUF_SIZE, TX_BUF_SIZE]; omega⟩
  · intro i hi
    have hi8 : i < b.data.length := by omega
    simp only [memcpy_from_array, hi, if_true, List.getD_eq_getElem?_getD,
      List.getElem?_eq_getElem hi8, Option.getD_some]
  · intro i hi
    have hn : ¬ i < min (b.dlc % 16) 8 := by omega
    simp only [memcpy_from_array, hn, if_false]

/-- Witness of claim C12: a buffer whose DLC is 0x0F gives length 15; exactly the eight
data bytes are written and the caller's byte at index 8 keeps its content. -/
theorem C12_receive_payload_copy_witness :
    (MCP2515_Control.receive
        ⟨fun _ => [0x24, 0x60, 0x00, 0x00, 0x0F, 1, 2, 3, 4, 5, 6, 7, 8], fun _ => 0x00⟩
        RxB.RxB0 (fun _ => 0x55)).len = 15 ∧
    (MCP2515_Control.receive
        ⟨fun _ => [0x24, 0x60, 0x00, 0x00, 0x0F, 1, 2, 3, 4, 5, 6, 7, 8], fun _ => 0x00⟩
        RxB.RxB0 (fun _ => 0x55)).data 0 = 1 ∧
    (MCP2515_Control.receive
        ⟨fun _ => [0x24, 0x60, 0x00, 0x00, 0x0F, 1, 2, 3, 4, 5, 6, 7, 8], fun _ => 0x00⟩
        RxB.RxB0 (fun _ => 0x55)).data 7 = 8 ∧
    (MCP2515_Control.receive
        ⟨fun _ => [0x24, 0x60, 0x00, 0x00, 0x0F, 1, 2, 3, 4, 5, 6, 7, 8], fun _ => 0x00⟩
        RxB.RxB0 (fun _ => 0x55)).data 8 = 0x55 := by
  obtain ⟨h1, h2, _, _⟩ :=
    C12_receive_payload_copy
      ⟨fun _ => [0x24, 0x60, 0x00, 0x00, 0x0F, 1, 2, 3, 4, 5, 6, 7, 8], fun _ => 0x00⟩
      RxB.RxB0 (fun _ => 0x55) ⟨0x24, 0x60, 0x00, 0x00, 0x0F, [1, 2, 3, 4, 5, 6, 7, 8]⟩
      rfl (by decide)
  exact ⟨by decide, (Option.some.inj (h1 0 (by decide))).symm,
    (Option.some.inj (h1 7 (by decide))).symm, h2 8 (by decide)⟩

/-- A field shifted up and a smaller value placed below it combine without carry. -/
theorem shiftLeft_or_eq_add (x k y : Nat) (h : y < 2 ^ k) :
    (x <<< k) ||| y = x * 2 ^ k + y := by
  rw [Nat.shiftLeft_eq, Nat.mul_comm x, ← Nat.mul_add_lt_is_or h x]

/-- The specification's base id, read arithmetically. -/
theorem spec_base_id_arith (b : RxTxBuffer) (hsidl : b.sidl < 256) :
    spec_base_id b = b.sidh * 8 + b.sidl / 32 := by
  unfold spec_base_id
  rw [Nat.shiftRight_eq_div_pow, shiftLeft_or_eq_add _ _ _ (by omega)]
  omega

/-- The specification's extended id, read arithmetically. -/
theorem spec_extended_id_arith (b : RxTxBuffer) (hsidl : b.sidl < 256)
    (heid8 : b.eid8 < 256) (heid0 : b.eid0 < 256) :
    spec_extended_id b
      = (((b.sidh * 8 + b.sidl / 32) * 4 + b.sidl % 4) * 256 + b.eid8) * 256 + b.eid0 := by
  unfold spec_extended_id
  simp only []
  rw [spec_base_id_arith b hsidl, and_0x03,
    shiftLeft_or_eq_add _ 2 _ (by omega), shiftLeft_or_eq_add _ 8 _ (by omega),
    shiftLeft_or_eq_add _ 8 _ (by omega)]
  omega

/-- Claim C13 (additive reassembly equals the bitwise-OR formula): for every buffer of
bytes, (SIDH << 3) + (SIDL >> 5) is the specification's (SIDH << 3) | (SIDL >> 5); the
three additive steps of the extended branch give the specification's value built
with | in place of +; and the id `receive` returns is the specification's formula of
the branch taken (the extended one exactly when bit 0 of SIDL is set), with the flag
bits set by the two tests. -/
theorem C13_additive_reassembly_is_or (io : MCP2515_Io) (rxb : RxB) (out : Nat → Nat)
    (b : RxTxBuffer) (hrx : io.readRxBuffer rxb = b.buf) (hsidh : b.sidh < 256)
    (hsidl : b.sidl < 256) (heid8 : b.eid8 < 256) (heid0 : b.eid0 < 256) :
    (b.sidh <<< 3) + (b.sidl >>> 5) = spec_base_id b ∧
    (((((b.sidh <<< 3) + (b.sidl >>> 5)) <<< 2) + (b.sidl &&& 0x03)) <<< 8 + b.eid8) <<< 8
        + b.eid0 = spec_extended_id b ∧
    (MCP2515_Control.receive io rxb out).id =
      ((if b.sidl % 2 = 1 then spec_extended_id b ||| CAN_EFF_BITMASK else spec_base_id b)
        ||| (if io.readRegister
                (if rxb = RxB.RxB0 then Register.RXB0CTRL else Register.RXB1CTRL) % 2 = 1
              then CAN_RTR_BITMASK else 0)) := by
  have hbase := spec_base_id_arith b hsidl
  have hext := spec_extended_id_arith b hsidl heid8 heid0
  have hid := receive_id_arith io rxb out b hrx hsidh hsidl heid8 heid0
  have hE : CAN_EFF_BITMASK = 2 ^ 29 := rfl
  have hR : CAN_RTR_BITMASK = 2 ^ 30 := rfl
  refine ⟨?_, ?_, ?_⟩
  · rw [hbase]
    simp only [Nat.shiftLeft_eq, Nat.shiftRight_eq_div_pow]
  · rw [hext, and_0x03]
    simp only [Nat.shiftLeft_eq, Nat.shiftRight_eq_div_pow]
  · rw [hid, hbase, hext, hE, hR]
    by_cases h0 : b.sidl % 2 = 1
    · rw [if_pos h0, if_pos h0, or_two_pow_eq_add _ 29 (by omega)]
      by_cases hc : io.readRegister
          (if rxb = RxB.RxB0 then Register.RXB0CTRL else Register.RXB1CTRL) % 2 = 1
      · rw [if_pos hc, or_two_pow_eq_add _ 30 (by omega)]
      · rw [if_neg hc, Nat.or_zero, Nat.add_zero]
    · rw [if_neg h0, if_neg h0]
      by_cases hc : io.readRegister
          (if rxb = RxB.RxB0 then Register.RXB0CTRL else Register.RXB1CTRL) % 2 = 1
      · rw [if_pos hc, or_two_pow_eq_add _ 30 (by omega)]
      · rw [if_neg hc, Nat.or_zero, Nat.add_zero]

/-- Witness of claim C13: the buffer FF EB FF FF, on which every field is at its
maximum, reassembles to 0x1FFFFFFF with the EFF flag, the same with + and with |. -/
theorem C13_additive_reassembly_is_or_witness :
    (0xFF <<< 3) + (0xEB >>> 5) = (0xFF <<< 3) ||| (0xEB >>> 5) ∧
    (MCP2515_Control.receive
        ⟨fun _ => [0xFF, 0xEB, 0xFF, 0xFF, 0x00, 0, 0, 0, 0, 0, 0, 0, 0], fun _ => 0x00⟩
        RxB.RxB0 (fun _ => 0x55)).id
      = (spec_extended_id ⟨0xFF, 0xEB, 0xFF, 0xFF, 0x00, [0, 0, 0, 0, 0, 0, 0, 0]⟩
          ||| CAN_EFF_BITMASK) ∧
    spec_extended_id ⟨0xFF, 0xEB, 0xFF, 0xFF, 0x00, [0, 0, 0, 0, 0, 0, 0, 0]⟩ = 0x1FFFFFFF := by
  obtain ⟨h1, _, h3⟩ :=
    C13_additive_reassembly_is_or
      ⟨fun _ => [0xFF, 0xEB, 0xFF, 0xFF, 0x00, 0, 0, 0, 0, 0, 0, 0, 0], fun _ => 0x00⟩
      RxB.RxB0 (fun _ => 0x55) ⟨0xFF, 0xEB, 0xFF, 0xFF, 0x00, [0, 0, 0, 0, 0, 0, 0, 0]⟩
      rfl (by decide) (by decide) (by decide) (by decide)
  exact ⟨h1, h3, by decide⟩

/-- The low nibble of the DLC byte `transmit` stores is the low nibble of the length,
with or without the RTR bit. -/
theorem dlc_low_nibble (c : Prop) [Decidable c] (len : Nat) :
    ((if c then (len ||| (1 <<< TXBnDLC.RTR)) else len) % 256) &&& 0x0F = len % 16 := by
  rw [and_0x0F]
  split_ifs
  · have h : (len ||| (1 <<< TXBnDLC.RTR)) % 16 = len % 16 := by
      rw [← and_0x0F, Nat.and_distrib_right, and_0x0F]
      have e : (1 <<< TXBnDLC.RTR) &&& 0x0F = 0 := by decide
      rw [e, Nat.or_zero]
    omega
  · omega

/-- Claim C14 as stated is false on the code: it is not the case that for every id and
every length in 0..255 the low nibble of the loaded DLC is a value in 0..8 equal to
min(length, 8). For id 0x123 and length 9 `transmit` loads DLC 0x09, whose low nibble
is 9. -/
theorem C14_dlc_low_nibble_counterexample :
    (MCP2515_Control.transmit
        ⟨0xAA, 0xAA, 0xAA, 0xAA, 0xAA, [0xAA, 0xAA, 0xAA, 0xAA, 0xAA, 0xAA, 0xAA, 0xAA]⟩
        TxB.TxB0 0x123 (fun i => 0x10 + i) 9
      = [IoOp.loadTxBuffer TxB.TxB0
          [0x24, 0x60, 0x00, 0x00, 0x09, 0x10, 0x11, 0x12, 0x13, 0x14, 0x15, 0x16, 0x17],
         IoOp.requestTx TxB.TxB0]) ∧
    ¬ (0x09 &&& 0x0F = min 9 8) ∧
    ¬ (∀ (tx_buffer : RxTxBuffer) (txb : TxB) (id : Nat) (data : Nat → Nat) (len : Nat),
        len < 256 →
        ∃ b : RxTxBuffer,
          MCP2515_Control.transmit tx_buffer txb id data len
            = [IoOp.loadTxBuffer txb b.buf, IoOp.requestTx txb] ∧
          b.dlc &&& 0x0F ≤ 8 ∧
          b.dlc &&& 0x0F = min len 8) := by
  have e : MCP2515_Control.transmit
      ⟨0xAA, 0xAA, 0xAA, 0xAA, 0xAA, [0xAA, 0xAA, 0xAA, 0xAA, 0xAA, 0xAA, 0xAA, 0xAA]⟩
      TxB.TxB0 0x123 (fun i => 0x10 + i) 9
      = [IoOp.loadTxBuffer TxB.TxB0
          [0x24, 0x60, 0x00, 0x00, 0x09, 0x10, 0x11, 0x12, 0x13, 0x14, 0x15, 0x16, 0x17],
         IoOp.requestTx TxB.TxB0] := by decide
  refine ⟨e, by decide, ?_⟩
  intro h
  obtain ⟨b, h1, h2, _⟩ :=
    h ⟨0xAA, 0xAA, 0xAA, 0xAA, 0xAA, [0xAA, 0xAA, 0xAA, 0xAA, 0xAA, 0xAA, 0xAA, 0xAA]⟩
      TxB.TxB0 0x123 (fun i => 0x10 + i) 9 (by decide)
  rw [e] at h1
  injection h1 with h1 _
  injection h1 with _ hb
  have hd : b.dlc = 0x09 := by
    have := congrArg RxTxBuffer.ofBuf hb
    rw [ofBuf_buf] at this
    rw [← this]
    rfl
  rw [hd] at h2
  exact absurd h2 (by decide)

/-- Claim C14, amended (DLC low nibble is the low four bits of the length): for every id
and every length in 0..255, bits 3..0 of the DLC byte that `transmit` loads are
length & 0x0F, while the number of payload bytes copied into the data field is
min(length, 8); for every length in 0..8 the nibble is therefore a value in 0..8 equal
to the number of bytes copied. -/
theorem C14_dlc_low_nibble_is_length_nibble (tx_buffer : RxTxBuffer) (txb : TxB) (id : Nat)
    (data : Nat → Nat) (len : Nat) (hlen : len < 256) :
    ∃ b : RxTxBuffer,
      MCP2515_Control.transmit tx_buffer txb id data len
        = [IoOp.loadTxBuffer txb b.buf, IoOp.requestTx txb] ∧
      b.dlc &&& 0x0F = len &&& 0x0F ∧
      b.dlc &&& 0x0F ≤ 15 ∧
      (∀ i, i < min len 8 → b.data[i]? = some (data i)) ∧
      (∀ i, min len 8 ≤ i → b.data[i]? = tx_buffer.data[i]?) ∧
      (len ≤ 8 → b.dlc &&& 0x0F ≤ 8 ∧ b.dlc &&& 0x0F = min len 8) := by
  have hn := dlc_low_nibble (id &&& CAN_RTR_BITMASK = CAN_RTR_BITMASK) len
  have hm := std_min_u8_eq len hlen
  have h16 := and_0x0F len
  by_cases h : id &&& CAN_EFF_BITMASK = CAN_EFF_BITMASK
  · refine ⟨_, transmit_of_ext tx_buffer txb id data len h, ?_, ?_, ?_, ?_, ?_⟩
    · rw [h16]; exact hn
    · show _ &&& 0x0F ≤ 15
      rw [hn]; omega
    · intro i hi
      exact getElem?_memcpy_to_array_lt _ _ _ _ (by omega)
    · intro i hi
      exact getElem?_memcpy_to_array_ge _ _ _ _ (by omega)
    · intro h8
      show _ &&& 0x0F ≤ 8 ∧ _ &&& 0x0F = min len 8
      rw [hn]; omega
  · refine ⟨_, transmit_of_not_ext tx_buffer txb id data len h, ?_, ?_, ?_, ?_, ?_⟩
    · rw [h16]; exact hn
    · show _ &&& 0x0F ≤ 15
      rw [hn]; omega
    · intro i hi
      exact getElem?_memcpy_to_array_lt _ _ _ _ (by omega)
    · intro i hi
      exact getElem?_memcpy_to_array_ge _ _ _ _ (by omega)
    · intro h8
      show _ &&& 0x0F ≤ 8 ∧ _ &&& 0x0F = min len 8
      rw [hn]; omega

/-- Witness of the amended claim C14: length 9 with the RTR flag set loads DLC 0x49,
whose low nibble is 9 = 9 & 0x0F, and copies 8 bytes. -/
theorem C14_dlc_low_nibble_is_length_nibble_witness :
    ∃ b : RxTxBuffer,
      MCP2515_Control.transmit
          ⟨0xAA, 0xAA, 0xAA, 0xAA, 0xAA, [0xAA, 0xAA, 0xAA, 0xAA, 0xAA, 0xAA, 0xAA, 0xAA]⟩
          TxB.TxB0 (0x123 ||| CAN_RTR_BITMASK) (fun i => 0x10 + i) 9
        = [IoOp.loadTxBuffer TxB.TxB0 b.buf, IoOp.requestTx TxB.TxB0] ∧
      b.dlc &&& 0x0F = 9 ∧
      b.data[7]? = some 0x17 ∧
      b.data[8]? = none := by
  obtain ⟨b, h1, h2, _, h4, h5, _⟩ :=
    C14_dlc_low_nibble_is_length_nibble
      ⟨0xAA, 0xAA, 0xAA, 0xAA, 0xAA, [0xAA, 0xAA, 0xAA, 0xAA, 0xAA, 0xAA, 0xAA, 0xAA]⟩
      TxB.TxB0 (0x123 ||| CAN_RTR_BITMASK) (fun i => 0x10 + i) 9 (by decide)
  exact ⟨b, h1, h2, h4 7 (by decide), h5 8 (by decide)⟩

/-- A value below a flag bit does not have that bit. -/
theorem and_two_pow_of_lt (x k : Nat) (h : x < 2 ^ k) : x &&& 2 ^ k = 0 := by
  apply Nat.eq_of_testBit_eq
  intro i
  rw [Nat.testBit_and, Nat.testBit_two_pow, Nat.zero_testBit]
  by_cases hi : k = i
  · subst hi
    rw [Nat.testBit_lt_two_pow h]
    rfl
  · simp [hi]

/-- The id `receive` returns does not depend on the DLC byte of the buffer. -/
theorem receive_id_dlc_irrelevant (io1 io2 : MCP2515_Io) (rxb : RxB) (out1 out2 : Nat → Nat)
    (b : RxTxBuffer) (dlc : Nat) (h1 : io1.readRxBuffer rxb = b.buf)
    (h2 : io2.readRxBuffer rxb = RxTxBuffer.buf { b with dlc := dlc })
    (hctrl : io1.readRegister (if rxb = RxB.RxB0 then Register.RXB0CTRL else Register.RXB1CTRL)
      = io2.readRegister (if rxb = RxB.RxB0 then Register.RXB0CTRL else Register.RXB1CTRL)) :
    (MCP2515_Control.receive io1 rxb out1).id = (MCP2515_Control.receive io2 rxb out2).id := by
  simp only [MCP2515_Control.receive, h1, h2, ofBuf_buf, hctrl]

/-- Claim C15 (receive RTR is independent of DLC): for any two receive buffers that
differ only in the DLC byte and the same control-register value, the ids `receive`
returns are equal, so their RTR flags are equal; and when the test on the control
register fails (its bit 0 is clear), the RTR flag of the returned id is clear whatever
the DLC byte, bit 6 of DLC included. -/
theorem C15_receive_rtr_independent_of_dlc (io1 io2 : MCP2515_Io) (rxb : RxB)
    (out1 out2 : Nat → Nat) (b : RxTxBuffer) (dlc : Nat)
    (h1 : io1.readRxBuffer rxb = b.buf)
    (h2 : io2.readRxBuffer rxb = RxTxBuffer.buf { b with dlc := dlc })
    (hctrl : io1.readRegister (if rxb = RxB.RxB0 then Register.RXB0CTRL else Register.RXB1CTRL)
      = io2.readRegister (if rxb = RxB.RxB0 then Register.RXB0CTRL else Register.RXB1CTRL))
    (hsidh : b.sidh < 256) (hsidl : b.sidl < 256) (heid8 : b.eid8 < 256)
    (heid0 : b.eid0 < 256) :
    (MCP2515_Control.receive io1 rxb out1).id = (MCP2515_Control.receive io2 rxb out2).id ∧
    (MCP2515_Control.receive io1 rxb out1).id &&& CAN_RTR_BITMASK
      = (MCP2515_Control.receive io2 rxb out2).id &&& CAN_RTR_BITMASK ∧
    (io2.readRegister (if rxb = RxB.RxB0 then Register.RXB0CTRL else Register.RXB1CTRL) % 2 = 0 →
      (MCP2515_Control.receive io2 rxb out2).id &&& CAN_RTR_BITMASK = 0) := by
  have he := receive_id_dlc_irrelevant io1 io2 rxb out1 out2 b dlc h1 h2 hctrl
  refine ⟨he, by rw [he], ?_⟩
  intro hc
  have hid := receive_id_arith io2 rxb out2 { b with dlc := dlc } h2 hsidh hsidl heid8 heid0
  have hc' : ¬ (io2.readRegister
      (if rxb = RxB.RxB0 then Register.RXB0CTRL else Register.RXB1CTRL) % 2 = 1) := by omega
  rw [if_neg hc', Nat.add_zero] at hid
  rw [hid]
  apply and_two_pow_of_lt _ 30
  split_ifs <;> simp only [] <;> omega

/-- Witness of claim C15: the same buffer with DLC 0x02 and with DLC 0x42 (bit 6 set),
the control register reading 0x00 both times, gives id 0x123 both times, RTR clear. -/
theorem C15_receive_rtr_independent_of_dlc_witness :
    (MCP2515_Control.receive
        ⟨fun _ => [0x24, 0x60, 0x00, 0x00, 0x02, 1, 2, 3, 4, 5, 6, 7, 8], fun _ => 0x00⟩
        RxB.RxB0 (fun _ => 0x55)).id
      = (MCP2515_Control.receive
        ⟨fun _ => [0x24, 0x60, 0x00, 0x00, 0x42, 1, 2, 3, 4, 5, 6, 7, 8], fun _ => 0x00⟩
        RxB.RxB0 (fun _ => 0x55)).id ∧
    (MCP2515_Control.receive
        ⟨fun _ => [0x24, 0x60, 0x00, 0x00, 0x42, 1, 2, 3, 4, 5, 6, 7, 8], fun _ => 0x00⟩
        RxB.RxB0 (fun _ => 0x55)).id &&& CAN_RTR_BITMASK = 0 := by
  obtain ⟨h1, _, h3⟩ :=
    C15_receive_rtr_independent_of_dlc
      ⟨fun _ => [0x24, 0x60, 0x00, 0x00, 0x02, 1, 2, 3, 4, 5, 6, 7, 8], fun _ => 0x00⟩
      ⟨fun _ => [0x24, 0x60, 0x00, 0x00, 0x42, 1, 2, 3, 4, 5, 6, 7, 8], fun _ => 0x00⟩
      RxB.RxB0 (fun _ => 0x55) (fun _ => 0x55)
      ⟨0x24, 0x60, 0x00, 0x00, 0x02, [1, 2, 3, 4, 5, 6, 7, 8]⟩ 0x42 rfl rfl rfl
      (by decide) (by decide) (by decide) (by decide)
  exact ⟨h1, h3 (by decide)⟩

/-- Claim C16 (receive is read-only and fixed-shape): for either slot, `receive` performs
exactly two register I/O operations, `readRxBuffer` of the slot followed by one
`readRegister` of that slot's control register (`RXB0CTRL` for `RxB0`, `RXB1CTRL` for
`RxB1`), and issues no `loadTxBuffer`, `requestTx`, `writeRegister` or
`modifyRegister`. -/
theorem C16_receive_read_only (io : MCP2515_Io) (rxb : RxB) (out : Nat → Nat) :
    (MCP2515_Control.receive io RxB.RxB0 out).io
      = [IoOp.readRxBuffer RxB.RxB0, IoOp.readRegister Register.RXB0CTRL] ∧
    (MCP2515_Control.receive io RxB.RxB1 out).io
      = [IoOp.readRxBuffer RxB.RxB1, IoOp.readRegister Register.RXB1CTRL] ∧
    (MCP2515_Control.receive io rxb out).io.length = 2 ∧
    ∀ op, op ∈ (MCP2515_Control.receive io rxb out).io →
      (∀ txb buf, op ≠ IoOp.loadTxBuffer txb buf) ∧
      (∀ txb, op ≠ IoOp.requestTx txb) ∧
      (∀ reg v, op ≠ IoOp.writeRegister reg v) ∧
      (∀ reg mask v, op ≠ IoOp.modifyRegister reg mask v) := by
  refine ⟨rfl, rfl, rfl, ?_⟩
  intro op hop
  simp only [MCP2515_Control.receive, List.mem_cons, List.mem_singleton, List.mem_nil_iff,
    or_false] at hop
  rcases hop with h | h <;> subst h <;>
    exact ⟨fun _ _ h => IoOp.noConfusion h, fun _ h => IoOp.noConfusion h,
      fun _ _ h => IoOp.noConfusion h, fun _ _ _ h => IoOp.noConfusion h⟩

/-- Masking the EFF and RTR flag bits off a 31-bit value leaves its low 29 bits. -/
theorem mask_flags_off (x : Nat) (h : x < 2 ^ 31) :
    x &&& (0xFFFFFFFF ^^^ (CAN_EFF_BITMASK ||| CAN_RTR_BITMASK)) = x % 2 ^ 29 := by
  have hm : (0xFFFFFFFF ^^^ (CAN_EFF_BITMASK ||| CAN_RTR_BITMASK)) = (2 ^ 29 - 1) ||| 2 ^ 31 := by
    decide
  rw [hm, Nat.and_or_distrib_left, Nat.and_pow_two_sub_one_eq_mod, and_two_pow_of_lt x 31 h,
    Nat.or_zero]

/-- A value below both flag bits has neither of them. -/
theorem and_flags_of_lt (x : Nat) (h : x < 2 ^ 29) :
    x &&& (CAN_EFF_BITMASK ||| CAN_RTR_BITMASK) = 0 := by
  have hE : CAN_EFF_BITMASK = 2 ^ 29 := rfl
  have hR : CAN_RTR_BITMASK = 2 ^ 30 := rfl
  rw [Nat.and_or_distrib_left, hE, hR, and_two_pow_of_lt x 29 h,
    and_two_pow_of_lt x 30 (by omega)]
  rfl

/-- Claim C17 (received arbitration id stays inside its field): for every buffer of
bytes and every control-register value, the value `receive` reassembles, computed
without any wrap-around, is below 2^11 when the standard branch is taken and below 2^29
when the extended branch is taken, so it has neither flag bit; the id `receive` returns
is that value plus the flags set by the two flag tests (which read bit 0 of SIDL and of
the control register); masking the EFF and RTR bits off the returned id gives the
reassembled value back; the id is below 2^32 and its flags are set exactly by the two
flag tests. -/
theorem C17_received_id_in_field (io : MCP2515_Io) (rxb : RxB) (out : Nat → Nat)
    (b : RxTxBuffer) (hrx : io.readRxBuffer rxb = b.buf) (hsidh : b.sidh < 256)
    (hsidl : b.sidl < 256) (heid8 : b.eid8 < 256) (heid0 : b.eid0 < 256) :
    ∃ arb : Nat,
      arb = (if b.sidl % 2 = 1 then
              ((((((b.sidh <<< 3) + (b.sidl >>> 5)) <<< 2) + (b.sidl &&& 0x03)) <<< 8)
                  + b.eid8) <<< 8 + b.eid0
            else (b.sidh <<< 3) + (b.sidl >>> 5)) ∧
      (b.sidl % 2 = 0 → arb < 2 ^ 11) ∧
      (b.sidl % 2 = 1 → arb < 2 ^ 29) ∧
      arb &&& (CAN_EFF_BITMASK ||| CAN_RTR_BITMASK) = 0 ∧
      (MCP2515_Control.receive io rxb out).id
        = arb + (if b.sidl % 2 = 1 then CAN_EFF_BITMASK else 0)
            + (if io.readRegister
                    (if rxb = RxB.RxB0 then Register.RXB0CTRL else Register.RXB1CTRL) % 2 = 1
                then CAN_RTR_BITMASK else 0) ∧
      (MCP2515_Control.receive io rxb out).id
        &&& (0xFFFFFFFF ^^^ (CAN_EFF_BITMASK ||| CAN_RTR_BITMASK)) = arb ∧
      (b.sidl % 2 = 0 →
        (MCP2515_Control.receive io rxb out).id
          &&& (0xFFFFFFFF ^^^ (CAN_EFF_BITMASK ||| CAN_RTR_BITMASK)) < 2 ^ 11) ∧
      (b.sidl % 2 = 1 →
        (MCP2515_Control.receive io rxb out).id
          &&& (0xFFFFFFFF ^^^ (CAN_EFF_BITMASK ||| CAN_RTR_BITMASK)) < 2 ^ 29) ∧
      (MCP2515_Control.receive io rxb out).id < 2 ^ 32 ∧
      ((MCP2515_Control.receive io rxb out).id &&& CAN_EFF_BITMASK = CAN_EFF_BITMASK
        ↔ b.sidl % 2 = 1) ∧
      ((MCP2515_Control.receive io rxb out).id &&& CAN_RTR_BITMASK = CAN_RTR_BITMASK
        ↔ io.readRegister
            (if rxb = RxB.RxB0 then Register.RXB0CTRL else Register.RXB1CTRL) % 2 = 1) := by
  have hid := receive_id_arith io rxb out b hrx hsidh hsidl heid8 heid0
  have hE : CAN_EFF_BITMASK = 2 ^ 29 := rfl
  have hR : CAN_RTR_BITMASK = 2 ^ 30 := rfl
  have hstd : (b.sidh <<< 3) + (b.sidl >>> 5) = b.sidh * 8 + b.sidl / 32 := by
    simp only [Nat.shiftLeft_eq, Nat.shiftRight_eq_div_pow]
  have hext : ((((((b.sidh <<< 3) + (b.sidl >>> 5)) <<< 2) + (b.sidl &&& 0x03)) <<< 8)
        + b.eid8) <<< 8 + b.eid0
      = (((b.sidh * 8 + b.sidl / 32) * 4 + b.sidl % 4) * 256 + b.eid8) * 256 + b.eid0 := by
    rw [hstd, and_0x03]
    simp only [Nat.shiftLeft_eq]
  refine ⟨_, rfl, ?_⟩
  rw [hext, hstd, hE, hR]
  generalize io.readRegister
    (if rxb = RxB.RxB0 then Register.RXB0CTRL else Register.RXB1CTRL) = ctrl at hid ⊢
  generalize (MCP2515_Control.receive io rxb out).id = id at hid ⊢
  have hflags : ∀ x : Nat, x < 2 ^ 29 → x &&& (2 ^ 29 ||| 2 ^ 30) = 0 := and_flags_of_lt
  have hmask : ∀ x : Nat, x < 2 ^ 31 → x &&& (0xFFFFFFFF ^^^ (2 ^ 29 ||| 2 ^ 30)) = x % 2 ^ 29 :=
    mask_flags_off
  by_cases h0 : b.sidl % 2 = 1
  · by_cases hc : ctrl % 2 = 1
    · simp only [if_pos h0, if_pos hc] at hid ⊢
      have hA : (((b.sidh * 8 + b.sidl / 32) * 4 + b.sidl % 4) * 256 + b.eid8) * 256 + b.eid0 < 2 ^ 29 := by omega
      generalize (((b.sidh * 8 + b.sidl / 32) * 4 + b.sidl % 4) * 256 + b.eid8) * 256 + b.eid0 = A at hid hA ⊢
      rw [hmask id (by omega), hflags A (by omega), and_two_pow_eq_iff, and_two_pow_eq_iff]
      refine ⟨?_, ?_, rfl, ?_, ?_, ?_, ?_, ?_, ?_, ?_⟩ <;> omega
    · simp only [if_pos h0, if_neg hc] at hid ⊢
      have hA : (((b.sidh * 8 + b.sidl / 32) * 4 + b.sidl % 4) * 256 + b.eid8) * 256 + b.eid0 < 2 ^ 29 := by omega
      generalize (((b.sidh * 8 + b.sidl / 32) * 4 + b.sidl % 4) * 256 + b.eid8) * 256 + b.eid0 = A at hid hA ⊢
      rw [hmask id (by omega), hflags A (by omega), and_two_pow_eq_iff, and_two_pow_eq_iff]
      refine ⟨?_, ?_, rfl, ?_, ?_, ?_, ?_, ?_, ?_, ?_⟩ <;> omega
  · by_cases hc : ctrl % 2 = 1
    · simp only [if_neg h0, if_pos hc] at hid ⊢
      have hA : b.sidh * 8 + b.sidl / 32 < 2 ^ 11 := by omega
      generalize b.sidh * 8 + b.sidl / 32 = A at hid hA ⊢
      rw [hmask id (by omega), hflags A (by omega), and_two_pow_eq_iff, and_two_pow_eq_iff]
      refine ⟨?_, ?_, rfl, ?_, ?_, ?_, ?_, ?_, ?_, ?_⟩ <;> omega
    · simp only [if_neg h0, if_neg hc] at hid ⊢
      have hA : b.sidh * 8 + b.sidl / 32 < 2 ^ 11 := by omega
      generalize b.sidh * 8 + b.sidl / 32 = A at hid hA ⊢
      rw [hmask id (by omega), hflags A (by omega), and_two_pow_eq_iff, and_two_pow_eq_iff]
      refine ⟨?_, ?_, rfl, ?_, ?_, ?_, ?_, ?_, ?_, ?_⟩ <;> omega

/-- Witness of claim C17: the all-ones header FF FF FF FF with the control register
reading 0xFF gives the largest value each step can produce; the reassembled value is
0x1FFFFFFF, and the id is that value plus both flags. -/
theorem C17_received_id_in_field_witness :
    (MCP2515_Control.receive
        ⟨fun _ => [0xFF, 0xFF, 0xFF, 0xFF, 0xFF, 0, 0, 0, 0, 0, 0, 0, 0], fun _ => 0xFF⟩
        RxB.RxB0 (fun _ => 0x55)).id
      = 0x1FFFFFFF + CAN_EFF_BITMASK + CAN_RTR_BITMASK ∧
    (MCP2515_Control.receive
        ⟨fun _ => [0xFF, 0xFF, 0xFF, 0xFF, 0xFF, 0, 0, 0, 0, 0, 0, 0, 0], fun _ => 0xFF⟩
        RxB.RxB0 (fun _ => 0x55)).id
      &&& (0xFFFFFFFF ^^^ (CAN_EFF_BITMASK ||| CAN_RTR_BITMASK)) = 0x1FFFFFFF ∧
    (0x1FFFFFFF : Nat) < 2 ^ 29 ∧
    (MCP2515_Control.receive
        ⟨fun _ => [0xFF, 0xFF, 0xFF, 0xFF, 0xFF, 0, 0, 0, 0, 0, 0, 0, 0], fun _ => 0xFF⟩
        RxB.RxB0 (fun _ => 0x55)).id < 2 ^ 32 := by
  obtain ⟨arb, harb, _, hlt, _, hid, hmask, _, _, h32, _, _⟩ :=
    C17_received_id_in_field
      ⟨fun _ => [0xFF, 0xFF, 0xFF, 0xFF, 0xFF, 0, 0, 0, 0, 0, 0, 0, 0], fun _ => 0xFF⟩
      RxB.RxB0 (fun _ => 0x55) ⟨0xFF, 0xFF, 0xFF, 0xFF, 0xFF, [0, 0, 0, 0, 0, 0, 0, 0]⟩
      rfl (by decide) (by decide) (by decide) (by decide)
  have ha : arb = 0x1FFFFFFF := by
    rw [harb]
    decide
  rw [ha] at hid hmask
  exact ⟨hid, hmask, by decide, h32⟩

/-! ## Injectivity of the header packing -/

/-- The SIDL byte of an extended frame, read arithmetically: its three fields do not
overlap. -/
theorem sidl_ext_value (p q : Nat) (hp : p < 8) (hq : q < 4) :
    p * 32 ||| q ||| 8 = p * 32 + q + 8 := by
  interval_cases p <;> interval_cases q <;> rfl

/-- An id with the EFF flag is the sum of the flag and the five fields `transmit` packs
from it. -/
theorem ext_id_fields (y : Nat) (h1 : 2 ^ 29 ≤ y) (h2 : y < 2 ^ 30) :
    y = 2 ^ 29 + y % 8 + 8 * (y / 8 % 256) + 2 ^ 11 * (y / 2 ^ 11 % 256)
      + 2 ^ 19 * (y / 2 ^ 19 % 256) + 2 ^ 27 * (y / 2 ^ 27 % 4) := by
  omega

/-- A standard id is the sum of the two fields `transmit` packs from it. -/
theorem std_id_fields (y : Nat) (h : y ≤ 0x7FF) : y = y % 8 + 8 * (y / 8 % 256) := by
  omega

/-- Claim C18 (transmit header packing loses no id information): the map from the id to
(SIDH, SIDL, EID8, EID0) computed by `transmit` is injective on extended ids: for ids
a != b in [0, 0x1FFFFFFF], the buffers loaded for a | EFF_FLAG and b | EFF_FLAG differ
in at least one of the four id bytes; it is injective on standard ids in [0, 0x7FF];
and no standard id packs to the same four bytes as an extended id. The other arguments
of the two calls are arbitrary. -/
theorem C18_header_packing_injective (tx1 tx2 : RxTxBuffer) (txb1 txb2 : TxB)
    (data1 data2 : Nat → Nat) (len1 len2 : Nat) (a b s t : Nat)
    (ha : a ≤ 0x1FFFFFFF) (hb : b ≤ 0x1FFFFFFF) (hs : s ≤ 0x7FF) (ht : t ≤ 0x7FF) :
    ∃ ea eb ss st : RxTxBuffer,
      MCP2515_Control.transmit tx1 txb1 (a ||| CAN_EFF_BITMASK) data1 len1
        = [IoOp.loadTxBuffer txb1 ea.buf, IoOp.requestTx txb1] ∧
      MCP2515_Control.transmit tx2 txb2 (b ||| CAN_EFF_BITMASK) data2 len2
        = [IoOp.loadTxBuffer txb2 eb.buf, IoOp.requestTx txb2] ∧
      MCP2515_Control.transmit tx1 txb1 s data1 len1
        = [IoOp.loadTxBuffer txb1 ss.buf, IoOp.requestTx txb1] ∧
      MCP2515_Control.transmit tx2 txb2 t data2 len2
        = [IoOp.loadTxBuffer txb2 st.buf, IoOp.requestTx txb2] ∧
      (a ≠ b →
        ¬ (ea.sidh = eb.sidh ∧ ea.sidl = eb.sidl ∧ ea.eid8 = eb.eid8 ∧ ea.eid0 = eb.eid0)) ∧
      (s ≠ t →
        ¬ (ss.sidh = st.sidh ∧ ss.sidl = st.sidl ∧ ss.eid8 = st.eid8 ∧ ss.eid0 = st.eid0)) ∧
      ¬ (ss.sidh = eb.sidh ∧ ss.sidl = eb.sidl ∧ ss.eid8 = eb.eid8 ∧ ss.eid0 = eb.eid0) := by
  have hexta : (a ||| CAN_EFF_BITMASK) &&& CAN_EFF_BITMASK = CAN_EFF_BITMASK := by
    rw [or_eff_eq_add a ha]
    exact (and_two_pow_eq_iff (a + 2 ^ 29) 29).mpr (by omega)
  have hextb : (b ||| CAN_EFF_BITMASK) &&& CAN_EFF_BITMASK = CAN_EFF_BITMASK := by
    rw [or_eff_eq_add b hb]
    exact (and_two_pow_eq_iff (b + 2 ^ 29) 29).mpr (by omega)
  have hstds : s &&& CAN_EFF_BITMASK ≠ CAN_EFF_BITMASK := by
    have := @Nat.and_le_left s CAN_EFF_BITMASK
    unfold CAN_EFF_BITMASK at *
    omega
  have hstdt : t &&& CAN_EFF_BITMASK ≠ CAN_EFF_BITMASK := by
    have := @Nat.and_le_left t CAN_EFF_BITMASK
    unfold CAN_EFF_BITMASK at *
    omega
  refine ⟨_, _, _, _, transmit_of_ext tx1 txb1 _ data1 len1 hexta,
    transmit_of_ext tx2 txb2 _ data2 len2 hextb,
    transmit_of_not_ext tx1 txb1 s data1 len1 hstds,
    transmit_of_not_ext tx2 txb2 t data2 len2 hstdt, ?_, ?_, ?_⟩
  · intro hne h
    simp only [or_eff_eq_add a ha, or_eff_eq_add b hb] at h
    rw [sidl_ext_value _ _ (Nat.mod_lt _ (by decide)) (Nat.mod_lt _ (by decide)),
      sidl_ext_value _ _ (Nat.mod_lt _ (by decide)) (Nat.mod_lt _ (by decide))] at h
    obtain ⟨h1, h2, h3, h4⟩ := h
    have da := ext_id_fields (a + 2 ^ 29) (by omega) (by omega)
    have db := ext_id_fields (b + 2 ^ 29) (by omega) (by omega)
    have pa : (a + 2 ^ 29) % 8 < 8 := Nat.mod_lt _ (by decide)
    have pb : (b + 2 ^ 29) % 8 < 8 := Nat.mod_lt _ (by decide)
    have qa : (a + 2 ^ 29) / 2 ^ 27 % 4 < 4 := Nat.mod_lt _ (by decide)
    have qb : (b + 2 ^ 29) / 2 ^ 27 % 4 < 4 := Nat.mod_lt _ (by decide)
    generalize (a + 2 ^ 29) % 8 = a0 at *
    generalize (b + 2 ^ 29) % 8 = b0 at *
    generalize (a + 2 ^ 29) / 8 % 256 = a1 at *
    generalize (b + 2 ^ 29) / 8 % 256 = b1 at *
    generalize (a + 2 ^ 29) / 2 ^ 11 % 256 = a2 at *
    generalize (b + 2 ^ 29) / 2 ^ 11 % 256 = b2 at *
    generalize (a + 2 ^ 29) / 2 ^ 19 % 256 = a3 at *
    generalize (b + 2 ^ 29) / 2 ^ 19 % 256 = b3 at *
    generalize (a + 2 ^ 29) / 2 ^ 27 % 4 = a4 at *
    generalize (b + 2 ^ 29) / 2 ^ 27 % 4 = b4 at *
    apply hne
    omega
  · intro hne h
    simp only [] at h
    obtain ⟨h1, h2, _, _⟩ := h
    have ds := std_id_fields s hs
    have dt := std_id_fields t ht
    have ps : s % 8 < 8 := Nat.mod_lt _ (by decide)
    have pt : t % 8 < 8 := Nat.mod_lt _ (by decide)
    generalize s % 8 = s0 at *
    generalize t % 8 = t0 at *
    generalize s / 8 % 256 = s1 at *
    generalize t / 8 % 256 = t1 at *
    apply hne
    omega
  · intro h
    simp only [or_eff_eq_add b hb] at h
    rw [sidl_ext_value _ _ (Nat.mod_lt _ (by decide)) (Nat.mod_lt _ (by decide))] at h
    obtain ⟨_, h2, _, _⟩ := h
    have qb : (b + 2 ^ 29) / 2 ^ 27 % 4 < 4 := Nat.mod_lt _ (by decide)
    generalize (b + 2 ^ 29) / 2 ^ 27 % 4 = b4 at *
    generalize (b + 2 ^ 29) % 8 = b0 at *
    generalize s % 8 = s0 at *
    omega

/-- Witness of claim C18: ids 0x00000001 and 0x08000001 as extended ids, and ids 0x001
and 0x009 as standard ids. -/
theorem C18_header_packing_injective_witness :
    ∃ ea eb ss st : RxTxBuffer,
      MCP2515_Control.transmit
          ⟨0xAA, 0xAA, 0xAA, 0xAA, 0xAA, [0xAA, 0xAA, 0xAA, 0xAA, 0xAA, 0xAA, 0xAA, 0xAA]⟩
          TxB.TxB0 (0x00000001 ||| CAN_EFF_BITMASK) (fun _ => 0) 0
        = [IoOp.loadTxBuffer TxB.TxB0 ea.buf, IoOp.requestTx TxB.TxB0] ∧
      MCP2515_Control.transmit
          ⟨0xAA, 0xAA, 0xAA, 0xAA, 0xAA, [0xAA, 0xAA, 0xAA, 0xAA, 0xAA, 0xAA, 0xAA, 0xAA]⟩
          TxB.TxB1 (0x08000001 ||| CAN_EFF_BITMASK) (fun _ => 0) 0
        = [IoOp.loadTxBuffer TxB.TxB1 eb.buf, IoOp.requestTx TxB.TxB1] ∧
      MCP2515_Control.transmit
          ⟨0xAA, 0xAA, 0xAA, 0xAA, 0xAA, [0xAA, 0xAA, 0xAA, 0xAA, 0xAA, 0xAA, 0xAA, 0xAA]⟩
          TxB.TxB0 0x001 (fun _ => 0) 0
        = [IoOp.loadTxBuffer TxB.TxB0 ss.buf, IoOp.requestTx TxB.TxB0] ∧
      MCP2515_Control.transmit
          ⟨0xAA, 0xAA, 0xAA, 0xAA, 0xAA, [0xAA, 0xAA, 0xAA, 0xAA, 0xAA, 0xAA, 0xAA, 0xAA]⟩
          TxB.TxB1 0x009 (fun _ => 0) 0
        = [IoOp.loadTxBuffer TxB.TxB1 st.buf, IoOp.requestTx TxB.TxB1] ∧
      ¬ (ea.sidh = eb.sidh ∧ ea.sidl = eb.sidl ∧ ea.eid8 = eb.eid8 ∧ ea.eid0 = eb.eid0) ∧
      ¬ (ss.sidh = st.sidh ∧ ss.sidl = st.sidl ∧ ss.eid8 = st.eid8 ∧ ss.eid0 = st.eid0) ∧
      ¬ (ss.sidh = eb.sidh ∧ ss.sidl = eb.sidl ∧ ss.eid8 = eb.eid8 ∧ ss.eid0 = eb.eid0) := by
  obtain ⟨ea, eb, ss, st, h1, h2, h3, h4, h5, h6, h7⟩ :=
    C18_header_packing_injective
      ⟨0xAA, 0xAA, 0xAA, 0xAA, 0xAA, [0xAA, 0xAA, 0xAA, 0xAA, 0xAA, 0xAA, 0xAA, 0xAA]⟩
      ⟨0xAA, 0xAA, 0xAA, 0xAA, 0xAA, [0xAA, 0xAA, 0xAA, 0xAA, 0xAA, 0xAA, 0xAA, 0xAA]⟩
      TxB.TxB0 TxB.TxB1 (fun _ => 0) (fun _ => 0) 0 0 0x00000001 0x08000001 0x001 0x009
      (by decide) (by decide) (by decide) (by decide)
  exact ⟨ea, eb, ss, st, h1, h2, h3, h4, h5 (by decide), h6 (by decide), h7⟩

end MCP2515
